import Mathlib

/-!
Verification of the personal-CRM core (contacts, interactions, derived
summaries, privacy filtering, duplicate detection) as implemented by the
GCP MCP handlers (`gcp/functions-mcp/src/handlers.ts`) and their shared
helper modules (`shared/privacy.ts`, `shared/summary.ts`,
`shared/search.ts`, `shared/validation.ts`).

The TypeScript handlers are async functions against a blob store offering
whole-collection read/write.  We embed them as pure state transformers on a
`Store` record holding the four collections; every store write in the
source becomes a functional update, applied in the source's write order, so
that a later write of the same collection overwrites an earlier one exactly
as it does against the real store.  JavaScript strings are Lean `String`s;
all string operations are implemented structurally on the underlying
character lists so that the kernel can evaluate them.
-/

namespace Crm

/-! ## Character/string primitives (models of the JS string operations) -/

/-- Model of JS `toLowerCase` on a character (ASCII range, which is all the
    source's fixed keys and our test data use). -/
def lowerChar (c : Char) : Char :=
  if 65 ≤ c.toNat ∧ c.toNat ≤ 90 then Char.ofNat (c.toNat + 32) else c

/-- Model of JS `String.prototype.toLowerCase`. -/
def lowerStr (s : String) : String := ⟨s.data.map lowerChar⟩

/-- Whitespace characters recognized by the model of `/\s+/` and `trim`. -/
def isWsChar (c : Char) : Bool :=
  c = ' ' ∨ c = '\t' ∨ c = '\n' ∨ c = '\r'

/-- Model of JS `String.prototype.trim`. -/
def strTrim (s : String) : String :=
  ⟨((s.data.dropWhile isWsChar).reverse.dropWhile isWsChar).reverse⟩

/-- Split a character list at every character satisfying `isWsChar`.
    Splitting at single characters instead of maximal runs inserts extra
    empty tokens, which every caller drops (the source filters tokens by
    length), so the resulting token lists agree with JS `split(/\s+/)`. -/
def splitWsAux : List Char → List Char → List String
  | [], acc => [⟨acc.reverse⟩]
  | c :: cs, acc =>
      if isWsChar c then ⟨acc.reverse⟩ :: splitWsAux cs []
      else splitWsAux cs (c :: acc)

/-- Split a string on whitespace characters. -/
def splitWs (s : String) : List String := splitWsAux s.data []

/-- Nonempty whitespace-separated tokens of a string. -/
def wsTokens (s : String) : List String := (splitWs s).filter (· ≠ "")

/-- Model of JS `String.prototype.includes` (substring test). -/
def listContainsSub (nd : List Char) : List Char → Bool
  | [] => nd.isEmpty
  | c :: t => nd.isPrefixOf (c :: t) || listContainsSub nd t

/-- Substring test on strings: `strIncludes hay q` models `hay.includes(q)`. -/
def strIncludes (hay q : String) : Bool := listContainsSub q.data hay.data

/-- Case-insensitive substring test, modelling the source's ubiquitous
    `field.toLowerCase().includes(query.toLowerCase())`. -/
def ciIncludes (hay q : String) : Bool := strIncludes (lowerStr hay) (lowerStr q)

/-- Lexicographic code-unit `<` on character lists, modelling the result of
    `localeCompare`/`<`/`>=` on the source's ASCII `YYYY-MM-DD` strings. -/
def lexLtChars : List Char → List Char → Bool
  | [], [] => false
  | [], _ :: _ => true
  | _ :: _, [] => false
  | a :: as, b :: bs =>
      if a.toNat < b.toNat then true
      else if b.toNat < a.toNat then false
      else lexLtChars as bs

/-- String code-unit comparison `a < b`. -/
def strLt (a b : String) : Bool := lexLtChars a.data b.data

/-- First-occurrence deduplication with an accumulator of already-seen
    elements. -/
def uniqueFirstAux (seen : List String) : List String → List String
  | [] => []
  | x :: xs =>
      if seen.contains x then uniqueFirstAux seen xs
      else x :: uniqueFirstAux (seen ++ [x]) xs

/-- First-occurrence deduplication, modelling `[...new Set(xs)]`. -/
def uniqueFirst (l : List String) : List String := uniqueFirstAux [] l

/-- Join a list of strings with a separator, modelling `Array.prototype.join`. -/
def joinSep (sep : String) : List String → String
  | [] => ""
  | [x] => x
  | x :: y :: rest => x ++ sep ++ joinSep sep (y :: rest)

/-- Join with `". "`, as in `recentSummary`. -/
def joinDotSpace (l : List String) : String := joinSep (". ") l

/-- First `n` characters of a string, modelling `String.prototype.slice(0, n)`. -/
def strTake (s : String) (n : Nat) : String := ⟨s.data.take n⟩

/-! ## Calendar dates

The duplicate detector compares `new Date(a).getTime()` values of
`YYYY-MM-DD` strings, which parse to UTC midnight, so the millisecond
difference is exactly the difference of civil day numbers times 86400000.
We model the parse by computing days since the Unix epoch (valid for CE
years, which covers every representable `YYYY-MM-DD` the system stores); a
malformed date yields `none`, matching the `NaN` date whose comparisons are
all false. -/

/-- Split a character list at every occurrence of `sep`. -/
def splitOnCharAux (sep : Char) : List Char → List Char → List String
  | [], acc => [⟨acc.reverse⟩]
  | c :: cs, acc =>
      if c = sep then ⟨acc.reverse⟩ :: splitOnCharAux sep cs []
      else splitOnCharAux sep cs (c :: acc)

/-- Parse a nonempty all-digit string as a natural number. -/
def digitsToNat? (s : String) : Option Nat :=
  if s.data.isEmpty then none
  else if s.data.all (fun c => 48 ≤ c.toNat ∧ c.toNat ≤ 57) then
    some (s.data.foldl (fun acc c => acc * 10 + (c.toNat - 48)) 0)
  else none

/-- Days since 1970-01-01 of the civil date `y-m-d` (Gregorian, valid for
    years ≥ 1; standard civil-from-days arithmetic). -/
def daysFromCivil (y m d : Nat) : Int :=
  let yAdj := if m ≤ 2 then y - 1 else y
  let era := yAdj / 400
  let yoe := yAdj % 400
  let mp := (m + 9) % 12
  let doy := (153 * mp + 2) / 5 + d - 1
  let doe := yoe * 365 + yoe / 4 - yoe / 100 + doy
  (era * 146097 + doe : Int) - 719468

/-- Parse a `YYYY-MM-DD` string to its epoch day number. -/
def parseDays (s : String) : Option Int :=
  match splitOnCharAux '-' s.data [] with
  | [ys, ms, ds] =>
      match digitsToNat? ys, digitsToNat? ms, digitsToNat? ds with
      | some y, some m, some d => some (daysFromCivil y m d)
      | _, _, _ => none
  | _ => none

/-- Model of `Math.abs(new Date(a).getTime() - new Date(b).getTime()) <= 3 * 24 * 60 * 60 * 1000`. -/
def dateWithin3Days (a b : String) : Bool :=
  match parseDays a, parseDays b with
  | some x, some y => (x - y).natAbs ≤ 3
  | _, _ => false

/-! ## Data model (`types.ts`) -/

/-- Embedded `ContactInfo`. -/
structure ContactInfo where
  email : Option String
  phone : Option String
  linkedin : Option String
deriving DecidableEq, Repr

/-- A `Contact` record.  The `private` field is named `priv` because
    `private` is a Lean keyword; `none` models both JSON `null` and an
    absent optional field. -/
structure Contact where
  id : String
  name : String
  nickname : Option String
  company : Option String
  role : Option String
  howWeMet : Option String
  tags : List String
  contactInfo : ContactInfo
  notes : List String
  expertise : List String
  priv : Bool
  createdAt : String
  updatedAt : String
deriving DecidableEq, Repr

/-- An `Interaction` record.  `type` is kept as a free string because the
    handler casts the incoming string without runtime validation. -/
structure Interaction where
  id : String
  contactIds : List String
  date : String
  type : String
  summary : String
  topics : List String
  mentionedNextSteps : Option String
  location : Option String
  priv : Bool
  createdAt : String
  updatedAt : Option String
deriving DecidableEq, Repr

/-- A derived `ContactSummary` entry. -/
structure ContactSummary where
  id : String
  name : String
  company : Option String
  role : Option String
  tags : List String
  expertise : List String
  interactionCount : Nat
  lastInteraction : Option String
  firstInteraction : Option String
  topTopics : List String
  locations : List String
  recentSummary : String
  mentionedNextSteps : List String
  notes : List String
deriving DecidableEq, Repr

/-- The `CrmConfig` collection (single value). -/
structure CrmConfig where
  privateKey : String
deriving DecidableEq, Repr

/-- The four collections of the backing store. -/
structure Store where
  contacts : List Contact
  interactions : List Interaction
  summaries : List ContactSummary
  config : CrmConfig
deriving DecidableEq, Repr

/-! ## Shared helpers (`shared/privacy.ts`, `shared/search.ts`,
    `shared/validation.ts`) -/

/-- The shared `isContactPrivate`. -/
def isContactPrivate (c : Contact) : Bool := c.priv

/-- Whether a participant id resolves to a private contact (the repeated
    pattern `const c = contacts.find(...); return c && isContactPrivate(c)`). -/
def resolvesPrivate (contacts : List Contact) (id : String) : Bool :=
  match contacts.find? (fun c => c.id == id) with
  | some c => isContactPrivate c
  | none => false

/-- The shared `isInteractionPrivate`: the interaction is flagged private,
    or some participant id resolves to a private contact. -/
def isInteractionPrivate (i : Interaction) (contacts : List Contact) : Bool :=
  i.priv || i.contactIds.any (resolvesPrivate contacts)

/-- The shared `findContactByName`: all contacts whose name or nickname
    contains the query, case-insensitively. -/
def findContactByName (query : String) (contacts : List Contact) : List Contact :=
  contacts.filter (fun c =>
    ciIncludes c.name query ||
    (match c.nickname with
     | some nn => ciIncludes nn query
     | none => false))

/-- The shared `validateContactName`: returns the error message if the
    trimmed name splits into fewer than 2 whitespace tokens, `none` if
    valid.  JS `''.split(/\s+/)` yields `['']` (length 1), modelled by the
    empty-trim branch. -/
def validateContactName (name : String) : Option String :=
  let t := strTrim name
  let numParts := if t.data.isEmpty then 1 else (wsTokens t).length
  if numParts < 2 then
    some ("Contact name must include both first and last name. Got: \"" ++ name ++ "\"")
  else none

/-! ## Summary aggregation (`shared/summary.ts`) -/

/-- Stable insertion of an interaction into a date-descending list: placed
    before the first strictly-older entry, after equal dates. -/
def insertByDateDesc (i : Interaction) : List Interaction → List Interaction
  | [] => [i]
  | j :: js => if strLt j.date i.date then i :: j :: js else j :: insertByDateDesc i js

/-- Stable date-descending sort, modelling
    `.sort((a, b) => b.date.localeCompare(a.date))` (JS `sort` is stable). -/
def sortByDateDesc (l : List Interaction) : List Interaction :=
  l.foldl (fun acc i => insertByDateDesc i acc) []

/-- Increment a topic count in an insertion-ordered association list,
    modelling `Map.set(t, (Map.get(t) ?? 0) + 1)`. -/
def bumpTopic : List (String × Nat) → String → List (String × Nat)
  | [], t => [(t, 1)]
  | (k, n) :: rest, t =>
      if k == t then (k, n + 1) :: rest else (k, n) :: bumpTopic rest t

/-- Topic occurrence counts across a list of interactions, in first-seen
    order (JS `Map` preserves insertion order). -/
def topicCounts (l : List Interaction) : List (String × Nat) :=
  l.foldl (fun m i => i.topics.foldl bumpTopic m) []

/-- Stable insertion for the count-descending sort of topic counts. -/
def insertByCountDesc (p : String × Nat) : List (String × Nat) → List (String × Nat)
  | [] => [p]
  | q :: qs => if q.2 < p.2 then p :: q :: qs else q :: insertByCountDesc p qs

/-- Stable count-descending sort, modelling `.sort((a, b) => b[1] - a[1])`. -/
def sortByCountDesc (l : List (String × Nat)) : List (String × Nat) :=
  l.foldl (fun acc p => insertByCountDesc p acc) []

/-- The shared pure `buildContactSummary(contactId, contacts, interactions)`:
    `none` if the contact is missing or private; otherwise the summary
    computed from this contact's non-private interactions. -/
def buildContactSummary (contactId : String) (contacts : List Contact)
    (interactions : List Interaction) : Option ContactSummary :=
  match contacts.find? (fun c => c.id == contactId) with
  | none => none
  | some contact =>
    if isContactPrivate contact then none
    else
      let contactInteractions := sortByDateDesc
        (interactions.filter (fun i =>
          i.contactIds.contains contactId && !(isInteractionPrivate i contacts)))
      let topTopics := ((sortByCountDesc (topicCounts contactInteractions)).take 5).map (·.1)
      let locations := uniqueFirst
        ((contactInteractions.filterMap (·.location)).filter (· ≠ ""))
      let recentSummary := joinDotSpace
        ((contactInteractions.take 3).map (fun i => i.date ++ ": " ++ strTake i.summary 100))
      let mentionedNextSteps :=
        (contactInteractions.filterMap (·.mentionedNextSteps)).filter (· ≠ "")
      some
        { id := contact.id
          name := contact.name
          company := contact.company
          role := contact.role
          tags := contact.tags
          expertise := contact.expertise
          interactionCount := contactInteractions.length
          lastInteraction := contactInteractions.head?.map (·.date)
          firstInteraction :=
            match contactInteractions.getLast? with
            | some i => some i.date
            | none => none
          topTopics := topTopics
          locations := locations
          recentSummary := recentSummary
          mentionedNextSteps := mentionedNextSteps
          notes := contact.notes }

/-! ## Batched summary rebuild (`handlers.ts` `rebuildContactSummaries`) -/

/-- Remove the first summary entry with the given id, modelling
    `findIndex` + `splice(idx, 1)` (no-op when absent). -/
def removeFirstSummary : List ContactSummary → String → List ContactSummary
  | [], _ => []
  | e :: es, cid => if e.id == cid then es else e :: removeFirstSummary es cid

/-- Replace the first summary entry with the given id, or push at the end,
    modelling `findIndex` + `summaries[idx] = summary` / `push`. -/
def upsertSummary : List ContactSummary → String → ContactSummary → List ContactSummary
  | [], _, entry => [entry]
  | e :: es, cid, entry =>
      if e.id == cid then entry :: es else e :: upsertSummary es cid entry

/-- One iteration of the `rebuildContactSummaries` loop: remove the entry
    of a private contact, upsert the freshly built summary of a public
    contact, skip (`continue`) a missing contact. -/
def rebuildStep (contacts : List Contact) (interactions : List Interaction)
    (summaries : List ContactSummary) (contactId : String) : List ContactSummary :=
  let contact := contacts.find? (fun c => c.id == contactId)
  if (match contact with
      | some c => isContactPrivate c
      | none => false) then
    removeFirstSummary summaries contactId
  else
    match buildContactSummary contactId contacts interactions with
    | none => summaries
    | some entry => upsertSummary summaries contactId entry

/-- `rebuildContactSummaries(contactIds)`: one read of all collections, one
    in-memory pass over the ids, one write of the summaries collection.
    As a pure function: the new summaries collection. -/
def rebuildContactSummaries (contactIds : List String) (contacts : List Contact)
    (interactions : List Interaction) (summaries : List ContactSummary) :
    List ContactSummary :=
  if contactIds.isEmpty then summaries
  else contactIds.foldl (rebuildStep contacts interactions) summaries

/-- The store-level effect of awaiting `rebuildContactSummaries(ids)` at a
    point where the current store is `st`: it re-reads all three
    collections and overwrites the summaries collection. -/
def applyRebuild (contactIds : List String) (st : Store) : Store :=
  { st with summaries :=
      rebuildContactSummaries contactIds st.contacts st.interactions st.summaries }

/-! ## Handler-level helpers (`handlers.ts`)

Optional string arguments are modelled as `Option String` where `none`
stands for any JS-falsy value (absent, `null`, or `""`) at the branch
points that test truthiness; `getD` models the nullish `??` operator on
values our claims exercise. -/

/-- The projection `contactSummaryView(c)` returned in search results and
    warnings. -/
structure ContactView where
  id : String
  name : String
  nickname : Option String
  company : Option String
  role : Option String
  tags : List String
  expertise : List String
  notes : List String
deriving DecidableEq, Repr

/-- `contactSummaryView` from the handlers file. -/
def contactSummaryView (c : Contact) : ContactView :=
  { id := c.id, name := c.name, nickname := c.nickname, company := c.company
    role := c.role, tags := c.tags, expertise := c.expertise, notes := c.notes }

/-- `isUnlocked(privateKey)`: an absent or empty provided key is never
    unlocked, and an unconfigured (empty) stored key unlocks nothing. -/
def isUnlocked (privateKey : Option String) (config : CrmConfig) : Bool :=
  match privateKey with
  | none => false
  | some k =>
      if k == "" then false
      else (config.privateKey != "") && (k == config.privateKey)

/-- `filterPrivateContacts`. -/
def filterPrivateContacts (contacts : List Contact) (unlocked : Bool) : List Contact :=
  if unlocked then contacts else contacts.filter (fun c => !(isContactPrivate c))

/-- `filterPrivateInteractions`: all-or-nothing interaction-level filter. -/
def filterPrivateInteractions (interactions : List Interaction)
    (contacts : List Contact) (unlocked : Bool) : List Interaction :=
  if unlocked then interactions
  else interactions.filter (fun i => !(isInteractionPrivate i contacts))

/-- Participant-name lookup, folding in the `contactMap` the source builds
    with `new Map(contacts.map(c => [c.id, c.name]))`; a JS `Map` keeps the
    last binding for a duplicated key, hence the `reverse`. -/
def contactNameOf (contacts : List Contact) (id : String) : String :=
  match contacts.reverse.find? (fun c => c.id == id) with
  | some c => c.name
  | none => "Unknown"

/-- The participant projection produced by `redactInteractionParticipants`. -/
structure ParticipantProjection where
  contactIds : List String
  participantNames : List String
  participantCount : Nat
deriving DecidableEq, Repr

/-- Whether a participant id stays visible to a locked caller: it resolves
    to no contact, or to a non-private one (`!c || !isContactPrivate(c)`). -/
def participantVisible (contacts : List Contact) (id : String) : Bool :=
  match contacts.find? (fun c => c.id == id) with
  | some c => !(isContactPrivate c)
  | none => true

/-- `redactInteractionParticipants`: with the key, the full participant
    list; locked, only ids that do not resolve to a private contact. -/
def redactInteractionParticipants (i : Interaction) (contacts : List Contact)
    (unlocked : Bool) : ParticipantProjection :=
  if unlocked then
    { contactIds := i.contactIds
      participantNames := i.contactIds.map (contactNameOf contacts)
      participantCount := i.contactIds.length }
  else
    let visibleIds := i.contactIds.filter (participantVisible contacts)
    { contactIds := visibleIds
      participantNames := visibleIds.map (contactNameOf contacts)
      participantCount := visibleIds.length }

/-- An interaction as returned by the read endpoints: the record spread
    together with the (possibly redacted) participant projection, which
    overrides `contactIds`. -/
structure InteractionView where
  interaction : Interaction
  contactIds : List String
  participantNames : List String
  participantCount : Nat
deriving DecidableEq, Repr

/-- Combine a record with its participant projection
    (`{ ...i, ...redacted }`). -/
def mkInteractionView (i : Interaction) (p : ParticipantProjection) : InteractionView :=
  { interaction := i, contactIds := p.contactIds
    participantNames := p.participantNames, participantCount := p.participantCount }

/-- JS truthiness of an optional string (`null`/`undefined`/`""` falsy). -/
def truthyOptStr : Option String → Bool
  | none => false
  | some v => v != ""

/-- Shared contact resolution: `contactId` branch first, then `name`, else
    a missing-argument error; `find` / `findContactByName(...)[0]`. -/
inductive Resolution
  | missingArg
  | notFound
  | found (c : Contact)
deriving DecidableEq, Repr

/-- Resolve a contact the way `getContact`/`updateContact`/`deleteContact` do. -/
def resolveContact (name contactId : Option String) (contacts : List Contact) : Resolution :=
  match contactId with
  | some cid =>
      match contacts.find? (fun c => c.id == cid) with
      | some c => .found c
      | none => .notFound
  | none =>
      match name with
      | some n =>
          match (findContactByName n contacts).head? with
          | some c => .found c
          | none => .notFound
      | none => .missingArg

/-- The identifier echoed in not-found messages (`args.name ?? args.contactId`). -/
def notFoundTarget (name contactId : Option String) : String :=
  match name with
  | some n => n
  | none =>
      match contactId with
      | some cid => cid
      | none => "undefined"

/-! ## Field-patch objects

`update_contact` and `edit_interaction` receive an open dictionary of
updates, applied through an allow-list check.  We model a patch as a list
of key/value pairs; values carry the type a well-typed caller passes for
the targeted field (ill-typed JS patches, which would store a raw value of
the wrong shape, are outside the claims and fall back to leaving the field
unchanged).  `asBool` mirrors that downstream privacy checks test the
stored value with `=== true`. -/

inductive UpdVal
  | vStr (v : String)
  | vOptStr (v : Option String)
  | vList (v : List String)
  | vBool (v : Bool)
deriving DecidableEq, Repr

def UpdVal.asStr : UpdVal → String → String
  | .vStr v, _ => v
  | _, d => d

def UpdVal.asOptStr : UpdVal → Option String → Option String
  | .vStr v, _ => some v
  | .vOptStr v, _ => v
  | _, d => d

def UpdVal.asList : UpdVal → List String → List String
  | .vList v, _ => v
  | _, d => d

def UpdVal.asBool : UpdVal → Bool
  | .vBool v => v
  | _ => false

/-- `updateContact`'s `allowedTopLevel` list. -/
def allowedTopLevel : List String :=
  ["name", "nickname", "company", "role", "howWeMet", "tags", "notes", "expertise", "private"]

/-- `updateContact`'s `allowedContactInfo` list. -/
def allowedContactInfo : List String :=
  ["email", "phone", "linkedin"]

/-- Dynamic assignment `(contact as any)[key] = value` for an allow-listed
    top-level key. -/
def setContactTopLevel (c : Contact) (key : String) (v : UpdVal) : Contact :=
  if key == "name" then { c with name := v.asStr c.name }
  else if key == "nickname" then { c with nickname := v.asOptStr c.nickname }
  else if key == "company" then { c with company := v.asOptStr c.company }
  else if key == "role" then { c with role := v.asOptStr c.role }
  else if key == "howWeMet" then { c with howWeMet := v.asOptStr c.howWeMet }
  else if key == "tags" then { c with tags := v.asList c.tags }
  else if key == "notes" then { c with notes := v.asList c.notes }
  else if key == "expertise" then { c with expertise := v.asList c.expertise }
  else if key == "private" then { c with priv := v.asBool }
  else c

/-- Dynamic assignment `(contact.contactInfo as any)[key] = value`. -/
def setContactInfoField (c : Contact) (key : String) (v : UpdVal) : Contact :=
  if key == "email" then
    { c with contactInfo := { c.contactInfo with email := v.asOptStr c.contactInfo.email } }
  else if key == "phone" then
    { c with contactInfo := { c.contactInfo with phone := v.asOptStr c.contactInfo.phone } }
  else if key == "linkedin" then
    { c with contactInfo := { c.contactInfo with linkedin := v.asOptStr c.contactInfo.linkedin } }
  else c

/-- One iteration of `updateContact`'s update loop: allow-listed keys are
    applied, every other key is skipped. -/
def applyContactUpdate (c : Contact) (kv : String × UpdVal) : Contact :=
  if allowedTopLevel.contains kv.1 then setContactTopLevel c kv.1 kv.2
  else if allowedContactInfo.contains kv.1 then setContactInfoField c kv.1 kv.2
  else c

/-- `updateContact`'s whole update loop. -/
def applyContactUpdates (c : Contact) (updates : List (String × UpdVal)) : Contact :=
  updates.foldl applyContactUpdate c

/-- `editInteraction`'s `allowedFields` list. -/
def allowedInteractionFields : List String :=
  ["summary", "date", "type", "topics", "mentionedNextSteps", "location", "contactIds", "private"]

/-- Dynamic assignment `(interaction as any)[key] = value` for an
    allow-listed field. -/
def setInteractionField (i : Interaction) (key : String) (v : UpdVal) : Interaction :=
  if key == "summary" then { i with summary := v.asStr i.summary }
  else if key == "date" then { i with date := v.asStr i.date }
  else if key == "type" then { i with type := v.asStr i.type }
  else if key == "topics" then { i with topics := v.asList i.topics }
  else if key == "mentionedNextSteps" then { i with mentionedNextSteps := v.asOptStr i.mentionedNextSteps }
  else if key == "location" then { i with location := v.asOptStr i.location }
  else if key == "contactIds" then { i with contactIds := v.asList i.contactIds }
  else if key == "private" then { i with priv := v.asBool }
  else i

/-- One iteration of `editInteraction`'s update loop. -/
def applyInteractionUpdate (i : Interaction) (kv : String × UpdVal) : Interaction :=
  if allowedInteractionFields.contains kv.1 then setInteractionField i kv.1 kv.2 else i

/-- `editInteraction`'s whole update loop. -/
def applyInteractionUpdates (i : Interaction) (updates : List (String × UpdVal)) : Interaction :=
  updates.foldl applyInteractionUpdate i

/-- Replace the first contact with the given id (the source mutates the
    object returned by `find` inside the array). -/
def replaceFirstContact : List Contact → String → Contact → List Contact
  | [], _, _ => []
  | c :: cs, cid, c' =>
      if c.id == cid then c' :: cs else c :: replaceFirstContact cs cid c'

/-- Remove the first contact with the given id (`findIndex` + `splice`). -/
def removeFirstContact : List Contact → String → List Contact
  | [], _ => []
  | c :: cs, cid => if c.id == cid then cs else c :: removeFirstContact cs cid

/-- Replace the first interaction with the given id. -/
def replaceFirstInteraction : List Interaction → String → Interaction → List Interaction
  | [], _, _ => []
  | i :: is, iid, i' =>
      if i.id == iid then i' :: is else i :: replaceFirstInteraction is iid i'

/-- Remove the first interaction with the given id (`findIndex` + `splice`). -/
def removeFirstInteraction : List Interaction → String → List Interaction
  | [], _ => []
  | i :: is, iid => if i.id == iid then is else i :: removeFirstInteraction is iid

/-! ## search_contacts -/

structure SearchContactsArgs where
  query : Option String
  tag : Option String
  company : Option String
  expertise : Option String
  limit : Option Nat
  privateKey : Option String
deriving Repr

inductive SearchContactsResult
  | ok (count : Nat) (contacts : List ContactView)
deriving DecidableEq, Repr

/-- The free-text filter of `searchContacts` for one contact. -/
def contactMatchesQuery (q : String) (c : Contact) : Bool :=
  ciIncludes c.name q ||
  (match c.nickname with
   | some v => ciIncludes v q
   | none => false) ||
  (match c.company with
   | some v => ciIncludes v q
   | none => false) ||
  (match c.role with
   | some v => ciIncludes v q
   | none => false) ||
  (match c.howWeMet with
   | some v => ciIncludes v q
   | none => false) ||
  c.tags.any (fun t => ciIncludes t q) ||
  c.expertise.any (fun e => ciIncludes e q) ||
  c.notes.any (fun n => ciIncludes n q)

/-- `searchContacts` (read-only). -/
def searchContacts (args : SearchContactsArgs) (s : Store) : SearchContactsResult :=
  let unlocked := isUnlocked args.privateKey s.config
  let r0 := filterPrivateContacts s.contacts unlocked
  let r1 : List Contact :=
    match args.query with
    | some q => r0.filter (contactMatchesQuery q)
    | none => r0
  let r2 : List Contact :=
    match args.tag with
    | some t => r1.filter (fun c => c.tags.any (fun x => lowerStr x == lowerStr t))
    | none => r1
  let r3 : List Contact :=
    match args.company with
    | some co => r2.filter (fun c =>
        match c.company with
        | some v => ciIncludes v co
        | none => false)
    | none => r2
  let r4 : List Contact :=
    match args.expertise with
    | some e => r3.filter (fun c => c.expertise.any (fun x => ciIncludes x e))
    | none => r3
  let limited := r4.take (args.limit.getD 20)
  .ok limited.length (limited.map contactSummaryView)

/-! ## get_contact -/

structure GetContactArgs where
  name : Option String
  contactId : Option String
  privateKey : Option String
deriving Repr

inductive GetContactResult
  | error (msg : String)
  | found (contact : Contact) (interactions : List InteractionView) (interactionCount : Nat)
deriving DecidableEq, Repr

/-- `getContact` (read-only): resolves the contact, hides private contacts
    from locked callers behind the not-found message, filters the contact's
    own history all-or-nothing with `filterPrivateInteractions`, sorts it
    newest-first, and attaches the redacted participant projection. -/
def getContact (args : GetContactArgs) (s : Store) : GetContactResult :=
  let contacts := s.contacts
  let unlocked := isUnlocked args.privateKey s.config
  match resolveContact args.name args.contactId contacts with
  | .missingArg => .error ("Provide either name or contactId")
  | .notFound => .error ("Contact not found: " ++ notFoundTarget args.name args.contactId)
  | .found contact =>
    if isContactPrivate contact && !unlocked then
      .error ("Contact not found: " ++ notFoundTarget args.name args.contactId)
    else
      let visibleInteractions := filterPrivateInteractions
        (s.interactions.filter (fun i => i.contactIds.contains contact.id)) contacts unlocked
      let contactInteractions := (sortByDateDesc visibleInteractions).map (fun i =>
        mkInteractionView i (redactInteractionParticipants i contacts unlocked))
      .found contact contactInteractions contactInteractions.length

/-! ## add_contact -/

structure AddContactArgs where
  name : String
  nickname : Option String
  company : Option String
  role : Option String
  howWeMet : Option String
  tags : Option (List String)
  email : Option String
  phone : Option String
  linkedin : Option String
  notes : Option (List String)
  expertise : Option (List String)
  forceDuplicate : Bool
  priv : Bool
  privateKey : Option String
deriving Repr

inductive AddContactResult
  | error (msg : String)
  | warning (msg : String) (existingContacts : List ContactView)
  | created (contact : Contact)
deriving DecidableEq, Repr

/-- `addContact`: name validation, duplicate-name warning unless
    `forceDuplicate`, then create and rebuild the new contact's summary.
    The generated id and the timestamp are passed in as `cid`/`now`. -/
def addContact (args : AddContactArgs) (cid now : String) (s : Store) :
    AddContactResult × Store :=
  match validateContactName args.name with
  | some err => (.error (err ++ ". Please ask the user for their full name."), s)
  | none =>
    let contacts := s.contacts
    let dupMatches := findContactByName args.name contacts
    if dupMatches.length > 0 && !args.forceDuplicate then
      (.warning ("Found " ++ toString dupMatches.length ++ " existing contact(s) matching \"" ++
          args.name ++ "\". If this is a different person, call add_contact again with forceDuplicate: true. Consider adding company or role to distinguish them.")
        (dupMatches.map contactSummaryView), s)
    else
      let newContact : Contact :=
        { id := cid, name := args.name, nickname := args.nickname
          company := args.company, role := args.role, howWeMet := args.howWeMet
          tags := args.tags.getD []
          contactInfo := { email := args.email, phone := args.phone, linkedin := args.linkedin }
          notes := args.notes.getD [], expertise := args.expertise.getD []
          priv := args.priv, createdAt := now, updatedAt := now }
      let st1 := { s with contacts := contacts ++ [newContact] }
      let st2 := applyRebuild [newContact.id] st1
      (.created newContact, st2)

/-! ## update_contact -/

structure UpdateContactArgs where
  name : Option String
  contactId : Option String
  updates : List (String × UpdVal)
  privateKey : Option String
deriving Repr

inductive UpdateContactResult
  | error (msg : String)
  | updated (contact : Contact)
deriving DecidableEq, Repr

/-- `updateContact`: resolve (private targets hidden behind not-found),
    apply the allow-listed patch, refresh `updatedAt`, write, rebuild the
    contact's summary. -/
def updateContact (args : UpdateContactArgs) (now : String) (s : Store) :
    UpdateContactResult × Store :=
  let contacts := s.contacts
  let unlocked := isUnlocked args.privateKey s.config
  match resolveContact args.name args.contactId contacts with
  | .missingArg => (.error ("Provide either name or contactId"), s)
  | .notFound =>
      (.error ("Contact not found: " ++ notFoundTarget args.name args.contactId), s)
  | .found contact =>
    if isContactPrivate contact && !unlocked then
      (.error ("Contact not found: " ++ notFoundTarget args.name args.contactId), s)
    else
      let updated := { applyContactUpdates contact args.updates with updatedAt := now }
      let st1 := { s with contacts := replaceFirstContact contacts contact.id updated }
      let st2 := applyRebuild [contact.id] st1
      (.updated updated, st2)

/-! ## log_interaction -/

structure LogInteractionArgs where
  contactNames : Option (List String)
  contactIds : Option (List String)
  contactName : Option String
  contactId : Option String
  summary : String
  date : Option String
  type : Option String
  topics : Option (List String)
  mentionedNextSteps : Option String
  location : Option String
  forceCreate : Bool
  priv : Bool
  privateKey : Option String
deriving Repr

/-- The projection of a similar interaction carried by a duplicate warning. -/
structure SimilarView where
  id : String
  date : String
  type : String
  summary : String
  topics : List String
  participantNames : List String
deriving DecidableEq, Repr

inductive LogInteractionResult
  | error (msg : String)
  | warning (msg : String) (similarInteractions : List SimilarView)
  | logged (interaction : Interaction) (participantNames : List String) (participantCount : Nat)
deriving DecidableEq, Repr

/-- First id in the list that resolves to no contact (the validation loop
    over `args.contactIds`). -/
def firstMissingId (contacts : List Contact) : List String → Option String
  | [] => none
  | id :: rest =>
      match contacts.find? (fun c => c.id == id) with
      | some _ => firstMissingId contacts rest
      | none => some id

/-- Resolve a list of names in order, failing on the first that matches no
    contact. -/
def resolveNames (contacts : List Contact) : List String → Except String (List String)
  | [] => .ok []
  | n :: rest =>
      match (findContactByName n contacts).head? with
      | none => .error ("Contact not found: " ++ n)
      | some c =>
          match resolveNames contacts rest with
          | .error e => .error e
          | .ok ids => .ok (c.id :: ids)

/-- Participant resolution with the source's precedence
    `contactIds > contactNames > contactId > contactName`; a list argument
    counts only when nonempty. -/
def resolveParticipants (args : LogInteractionArgs) (contacts : List Contact) :
    Except String (List String) :=
  let idsArg := args.contactIds.getD []
  let namesArg := args.contactNames.getD []
  if idsArg.length > 0 then
    match firstMissingId contacts idsArg with
    | some id => .error ("Contact not found with ID: " ++ id)
    | none => .ok idsArg
  else if namesArg.length > 0 then
    resolveNames contacts namesArg
  else
    match args.contactId with
    | some cid =>
        match contacts.find? (fun c => c.id == cid) with
        | none => .error ("Contact not found with ID: " ++ cid)
        | some _ => .ok [cid]
    | none =>
        match args.contactName with
        | some n =>
            match (findContactByName n contacts).head? with
            | none => .error ("Contact not found: " ++ n)
            | some c => .ok [c.id]
        | none => .error ("Provide contactNames/contactIds (for groups) or contactName/contactId (for single)")

/-- Significant tokens of a summary: lowercase whitespace tokens of length
    greater than 3, in order and with multiplicity. -/
def summaryTokens (s : String) : List String :=
  (splitWs (lowerStr s)).filter (fun w => w.data.length > 3)

/-- Pool membership in the duplicate detector: some participant id shared
    with the new interaction, and dated within three days. -/
def interactionNearby (resolvedIds : List String) (dateRef : String) (i : Interaction) : Bool :=
  i.contactIds.any (fun id => resolvedIds.contains id) && dateWithin3Days i.date dateRef

/-- The similarity filter applied to each pool member.  The two numeric
    comparisons render the source's float comparisons exactly:
    `sharedContacts / maxGroupSize < 0.5` holds for these integer operands
    iff `2 * sharedContacts < maxGroupSize`, and
    `overlap >= Math.min(3, newWords.size * 0.3)` holds iff
    `min 30 (3 * newWords.size) ≤ 10 * overlap` (the double nearest to
    `0.3 * n` never crosses an integer that `3n/10` does not cross). -/
def interactionSimilar (resolvedIds newWords : List String) (i : Interaction) : Bool :=
  let sharedContacts := (i.contactIds.filter (fun id => resolvedIds.contains id)).length
  let maxGroupSize := max i.contactIds.length resolvedIds.length
  if 2 * sharedContacts < maxGroupSize then false
  else
    let existingWords := summaryTokens i.summary
    let overlap := (existingWords.filter (fun w => newWords.contains w)).length
    decide (min 30 (3 * newWords.length) ≤ 10 * overlap)

/-- The interaction record built on the clean path of `logInteraction`. -/
def mkLoggedInteraction (iid : String) (resolvedIds : List String)
    (args : LogInteractionArgs) (interactionDate now : String) : Interaction :=
  { id := iid, contactIds := resolvedIds, date := interactionDate
    type := args.type.getD ("catch-up"), summary := args.summary
    topics := args.topics.getD [], mentionedNextSteps := args.mentionedNextSteps
    location := args.location, priv := args.priv, createdAt := now, updatedAt := none }

/-- `logInteraction`: resolve and deduplicate participants, refuse private
    participants without the key, run the duplicate detector unless
    `forceCreate`, then append the record and batch-rebuild the summaries
    of the resolved participant set.  The `nearby.length > 0` gate of the
    source is subsumed by filtering `similar` directly from the pool. -/
def logInteraction (args : LogInteractionArgs) (iid now today : String) (s : Store) :
    LogInteractionResult × Store :=
  let contacts := s.contacts
  let interactions := s.interactions
  let unlocked := isUnlocked args.privateKey s.config
  match resolveParticipants args contacts with
  | .error msg => (.error msg, s)
  | .ok resolved =>
    let resolvedContactIds := uniqueFirst resolved
    let hasPrivateParticipant := resolvedContactIds.any (resolvesPrivate contacts)
    if hasPrivateParticipant && !unlocked then
      (.error ("Cannot log interaction with private contact without privateKey"), s)
    else
      let participantNames := resolvedContactIds.map (contactNameOf contacts)
      let interactionDate := args.date.getD today
      let newWords := uniqueFirst (summaryTokens args.summary)
      let similar :=
        if args.forceCreate then []
        else (interactions.filter (interactionNearby resolvedContactIds interactionDate)).filter
          (interactionSimilar resolvedContactIds newWords)
      if similar.length > 0 then
        (.warning ("Found " ++ toString similar.length ++ " similar interaction(s) with overlapping participants within ±3 days. This may be a duplicate. If this is genuinely a different interaction, call log_interaction again with forceCreate: true. If you meant to update an existing interaction, use edit_interaction instead.")
          (similar.map (fun i =>
            { id := i.id, date := i.date, type := i.type, summary := i.summary
              topics := i.topics
              participantNames := i.contactIds.map (contactNameOf contacts) })), s)
      else
        let newInteraction := mkLoggedInteraction iid resolvedContactIds args interactionDate now
        let st1 := { s with interactions := interactions ++ [newInteraction] }
        let st2 := applyRebuild resolvedContactIds st1
        (.logged newInteraction participantNames resolvedContactIds.length, st2)

/-! ## edit_interaction -/

structure EditInteractionArgs where
  interactionId : String
  updates : List (String × UpdVal)
  privateKey : Option String
deriving Repr

inductive EditInteractionResult
  | error (msg : String)
  | updated (interaction : Interaction)
deriving DecidableEq, Repr

/-- `editInteraction`: resolve (private interactions hidden behind the
    not-found message), capture the pre-edit participant set, apply the
    allow-listed patch, refresh `updatedAt`, write, and batch-rebuild the
    union of old and new participant sets. -/
def editInteraction (args : EditInteractionArgs) (now : String) (s : Store) :
    EditInteractionResult × Store :=
  let contacts := s.contacts
  let interactions := s.interactions
  let unlocked := isUnlocked args.privateKey s.config
  match interactions.find? (fun i => i.id == args.interactionId) with
  | none => (.error ("Interaction not found: " ++ args.interactionId), s)
  | some interaction =>
    if isInteractionPrivate interaction contacts && !unlocked then
      (.error ("Interaction not found: " ++ args.interactionId), s)
    else
      let oldContactIds := interaction.contactIds
      let updated := { applyInteractionUpdates interaction args.updates with updatedAt := some now }
      let st1 := { s with interactions := replaceFirstInteraction interactions interaction.id updated }
      let allContactIds := uniqueFirst (oldContactIds ++ updated.contactIds)
      let st2 := applyRebuild allContactIds st1
      (.updated updated, st2)

/-! ## delete_interaction -/

structure DeleteInteractionArgs where
  interactionId : String
  privateKey : Option String
deriving Repr

inductive DeleteInteractionResult
  | error (msg : String)
  | deleted (interaction : Interaction)
deriving DecidableEq, Repr

/-- `deleteInteraction`: resolve (privacy-hidden behind not-found), remove
    the record, batch-rebuild the summaries of all its participants. -/
def deleteInteraction (args : DeleteInteractionArgs) (s : Store) :
    DeleteInteractionResult × Store :=
  let contacts := s.contacts
  let interactions := s.interactions
  let unlocked := isUnlocked args.privateKey s.config
  match interactions.find? (fun i => i.id == args.interactionId) with
  | none => (.error ("Interaction not found: " ++ args.interactionId), s)
  | some interaction =>
    if isInteractionPrivate interaction contacts && !unlocked then
      (.error ("Interaction not found: " ++ args.interactionId), s)
    else
      let st1 := { s with interactions := removeFirstInteraction interactions interaction.id }
      let st2 := applyRebuild interaction.contactIds st1
      (.deleted interaction, st2)

/-! ## delete_contact -/

structure DeleteContactArgs where
  name : Option String
  contactId : Option String
  deleteInteractions : Bool
  privateKey : Option String
deriving Repr

inductive DeleteContactResult
  | error (msg : String)
  | warning (msg : String) (contact : ContactView)
      (interactionCount soloInteractionCount groupInteractionCount : Nat)
  | deleted (contact : ContactView)
      (deletedInteractionCount updatedGroupInteractionCount : Nat)
deriving DecidableEq, Repr

/-- `deleteContact`.  With references and no cascade flag the warning is
    returned before any write.  On the cascade path the source awaits, in
    order: `writeInteractions(filtered)`, `rebuildContactSummaries` (which
    re-reads the store and writes the summaries collection), and finally
    `writeContacts` together with `writeSummaries(summaries)` — where
    `summaries` is the snapshot read at the start of the call with only the
    deleted contact's entry spliced out, so this last write replaces the
    collection the rebuild just wrote.  The threading below reproduces that
    write order. -/
def deleteContact (args : DeleteContactArgs) (now : String) (s : Store) :
    DeleteContactResult × Store :=
  let contacts := s.contacts
  let interactions := s.interactions
  let summaries := s.summaries
  let unlocked := isUnlocked args.privateKey s.config
  match resolveContact args.name args.contactId contacts with
  | .missingArg => (.error ("Provide either name or contactId"), s)
  | .notFound =>
      (.error ("Contact not found: " ++ notFoundTarget args.name args.contactId), s)
  | .found contact =>
    if isContactPrivate contact && !unlocked then
      (.error ("Contact not found: " ++ notFoundTarget args.name args.contactId), s)
    else
      let relatedInteractions := interactions.filter (fun i => i.contactIds.contains contact.id)
      let soloInteractions := relatedInteractions.filter (fun i => i.contactIds.length == 1)
      let groupInteractions := relatedInteractions.filter (fun i => i.contactIds.length > 1)
      if !args.deleteInteractions && relatedInteractions.length > 0 then
        let parts : List String :=
          (if soloInteractions.length > 0 then [toString soloInteractions.length ++ " solo"] else []) ++
          (if groupInteractions.length > 0 then [toString groupInteractions.length ++ " group"] else [])
        (.warning ("Contact \"" ++ contact.name ++ "\" has " ++ toString relatedInteractions.length ++
            " interaction(s) (" ++ joinSep (", ") parts ++ "). Solo interactions will be deleted; group interactions will have this contact removed but preserved. Set deleteInteractions: true to proceed.")
          (contactSummaryView contact)
          relatedInteractions.length soloInteractions.length groupInteractions.length, s)
      else
        let contacts1 := removeFirstContact contacts contact.id
        let summariesFinal := removeFirstSummary summaries contact.id
        if relatedInteractions.length > 0 then
          let soloIds := soloInteractions.map (fun i => i.id)
          let filtered := interactions.filter (fun i => !(soloIds.contains i.id))
          let processed := filtered.map (fun i =>
            if i.contactIds.contains contact.id then
              { i with contactIds := i.contactIds.filter (fun x => x != contact.id)
                       updatedAt := some now }
            else i)
          let affectedGroupContactIds := filtered.foldl (fun acc i =>
            if i.contactIds.contains contact.id then
              acc ++ i.contactIds.filter (fun x => x != contact.id)
            else acc) []
          let uniqueAffected := uniqueFirst affectedGroupContactIds
          let updatedGroupInteractionCount :=
            (filtered.filter (fun i => i.contactIds.contains contact.id)).length
          let st1 := { s with interactions := processed }
          let st2 := applyRebuild uniqueAffected st1
          (.deleted (contactSummaryView contact) soloInteractions.length updatedGroupInteractionCount,
            { st2 with contacts := contacts1, summaries := summariesFinal })
        else
          (.deleted (contactSummaryView contact) 0 0,
            { s with contacts := contacts1, summaries := summariesFinal })

/-! ## get_recent_interactions -/

structure RecentArgs where
  contactName : Option String
  contactId : Option String
  since : Option String
  type : Option String
  limit : Option Nat
  privateKey : Option String
deriving Repr

inductive RecentResult
  | error (msg : String)
  | ok (count : Nat) (interactions : List InteractionView)
deriving DecidableEq, Repr

/-- `getRecentInteractions` (read-only).  Note the asymmetry the claims
    probe: filtering by the id of a hidden private contact errors with a
    not-found message, while an id matching no contact at all just yields
    an empty filter result. -/
def getRecentInteractions (args : RecentArgs) (s : Store) : RecentResult :=
  let contacts := s.contacts
  let unlocked := isUnlocked args.privateKey s.config
  let results0 := filterPrivateInteractions s.interactions contacts unlocked
  let byContact : Except String (List Interaction) :=
    match args.contactId with
    | some cid =>
        match contacts.find? (fun c => c.id == cid) with
        | some contact =>
            if isContactPrivate contact && !unlocked then
              .error ("Contact not found: " ++ cid)
            else .ok (results0.filter (fun i => i.contactIds.contains cid))
        | none => .ok (results0.filter (fun i => i.contactIds.contains cid))
    | none =>
        match args.contactName with
        | some n =>
            match (findContactByName n contacts).head? with
            | none => .error ("Contact not found: " ++ n)
            | some contact =>
                if isContactPrivate contact && !unlocked then
                  .error ("Contact not found: " ++ n)
                else .ok (results0.filter (fun i => i.contactIds.contains contact.id))
        | none => .ok results0
  match byContact with
  | .error m => .error m
  | .ok r1 =>
    let r2 : List Interaction :=
      match args.since with
      | some d => r1.filter (fun i => !(strLt i.date d))
      | none => r1
    let r3 : List Interaction :=
      match args.type with
      | some t => r2.filter (fun i => i.type == t)
      | none => r2
    let sorted := (sortByDateDesc r3).take (args.limit.getD 20)
    .ok sorted.length (sorted.map (fun i =>
      mkInteractionView i (redactInteractionParticipants i contacts unlocked)))

/-! ## get_mentioned_next_steps -/

structure NextStepsArgs where
  limit : Option Nat
  privateKey : Option String
deriving Repr

structure NextStepView where
  participantNames : List String
  contactIds : List String
  interactionId : String
  date : String
  mentionedNextSteps : Option String
  summary : String
  participantCount : Nat
deriving DecidableEq, Repr

/-- `getMentionedNextSteps` (read-only). -/
def getMentionedNextSteps (args : NextStepsArgs) (s : Store) : Nat × List NextStepView :=
  let contacts := s.contacts
  let unlocked := isUnlocked args.privateKey s.config
  let visible := filterPrivateInteractions s.interactions contacts unlocked
  let withNextSteps :=
    ((sortByDateDesc (visible.filter (fun i => truthyOptStr i.mentionedNextSteps))).take
      (args.limit.getD 50)).map (fun i =>
      let red := redactInteractionParticipants i contacts unlocked
      { participantNames := red.participantNames
        contactIds := red.contactIds
        interactionId := i.id
        date := i.date
        mentionedNextSteps := i.mentionedNextSteps
        summary := i.summary
        participantCount := red.participantCount : NextStepView })
  (withNextSteps.length, withNextSteps)

/-! ## manage_privacy -/

structure ManagePrivacyArgs where
  operation : String
  currentKey : Option String
  newKey : Option String
deriving Repr

inductive ManagePrivacyResult
  | error (msg : String)
  | status (keyIsSet : Bool) (privateContactCount privateInteractionCount : Nat)
  | success
deriving DecidableEq, Repr

/-- `managePrivacy`: `status` reports whether a key is set and counts of
    private records; `set_key` requires the current key when one exists. -/
def managePrivacy (args : ManagePrivacyArgs) (s : Store) : ManagePrivacyResult × Store :=
  if args.operation == "status" then
    (.status (s.config.privateKey != "")
      (s.contacts.filter isContactPrivate).length
      (s.interactions.filter (fun i => i.priv)).length, s)
  else if args.operation == "set_key" then
    match args.newKey with
    | none => (.error ("newKey is required for set_key operation"), s)
    | some nk =>
      if nk == "" then (.error ("newKey is required for set_key operation"), s)
      else if s.config.privateKey != "" &&
          (match args.currentKey with
           | some k => k != s.config.privateKey
           | none => true) then
        (.error ("Incorrect currentKey. Provide the existing key to change it."), s)
      else (.success, { s with config := { privateKey := nk } })
  else (.error ("Unknown operation: " ++ args.operation), s)

/-! ## The operation surface as a step relation -/

/-- One repository operation together with the environment-supplied values
    the source obtains from `generateId`/`Date` (fresh ids, timestamps). -/
inductive Op
  | search (args : SearchContactsArgs)
  | get (args : GetContactArgs)
  | add (args : AddContactArgs) (cid now : String)
  | update (args : UpdateContactArgs) (now : String)
  | logI (args : LogInteractionArgs) (iid now today : String)
  | editI (args : EditInteractionArgs) (now : String)
  | delI (args : DeleteInteractionArgs)
  | delC (args : DeleteContactArgs) (now : String)
  | recent (args : RecentArgs)
  | nextSteps (args : NextStepsArgs)
  | privacy (args : ManagePrivacyArgs)

/-- The store after running one operation (read-only operations leave it
    unchanged, matching their write-free bodies). -/
def Op.apply : Op → Store → Store
  | .search _, s => s
  | .get _, s => s
  | .add args cid now, s => (addContact args cid now s).2
  | .update args now, s => (updateContact args now s).2
  | .logI args iid now today, s => (logInteraction args iid now today s).2
  | .editI args now, s => (editInteraction args now s).2
  | .delI args, s => (deleteInteraction args s).2
  | .delC args now, s => (deleteContact args now s).2
  | .recent _, s => s
  | .nextSteps _, s => s
  | .privacy args, s => (managePrivacy args s).2

/-- Freshness of the environment-generated id: `add_contact` stores a
    generated id assumed not to collide with an existing contact id. -/
def Op.Fresh : Op → Store → Prop
  | .add _ cid _, s => ∀ c ∈ s.contacts, c.id ≠ cid
  | _, _ => True

/-! ## Result discriminators -/

/-- Whether a `logInteraction` result is a duplicate warning. -/
def LogInteractionResult.isWarning : LogInteractionResult → Bool
  | .warning _ _ => true
  | _ => false

/-- The similar-interaction projections carried by a duplicate warning. -/
def LogInteractionResult.similarList : LogInteractionResult → List SimilarView
  | .warning _ sims => sims
  | _ => []

/-- Whether a `deleteContact` result is the pre-mutation warning. -/
def DeleteContactResult.isWarning : DeleteContactResult → Bool
  | .warning _ _ _ _ _ => true
  | _ => false

/-- The reference counts carried by a `deleteContact` warning. -/
def DeleteContactResult.warningCounts : DeleteContactResult → Option (Nat × Nat × Nat)
  | .warning _ _ rel solo grp => some (rel, solo, grp)
  | _ => none

/-! ## Invariants -/

/-- The summaries collection matches the contacts collection: every entry
    belongs to an existing non-private contact, and every existing
    non-private contact has an entry. -/
def SummariesMatch (s : Store) : Prop :=
  (∀ e ∈ s.summaries, ∃ c ∈ s.contacts, c.id = e.id ∧ c.priv = false) ∧
  (∀ c ∈ s.contacts, c.priv = false → ∃ e ∈ s.summaries, e.id = c.id)

/-- The inductive store invariant: contact ids and summary ids are
    duplicate-free, and summaries match contacts as above.  The id
    `Nodup` facts hold of every reachable store (ids are generated fresh
    and upserts never duplicate) and are what makes `SummariesMatch`
    preservable. -/
def StoreInv (s : Store) : Prop :=
  (s.contacts.map (·.id)).Nodup ∧ (s.summaries.map (·.id)).Nodup ∧ SummariesMatch s

/-- Every stored contact name passes the shared name validation. -/
def NamesOk (s : Store) : Prop :=
  ∀ c ∈ s.contacts, validateContactName c.name = none

/-- Operations whose patch does not target the `name` field (every
    operation except a `update_contact` call whose updates include a
    `name` key). -/
def NamePreserving : Op → Prop
  | .update args _ => ∀ kv ∈ args.updates, kv.1 ≠ "name"
  | _ => True

instance (s : Store) : Decidable (SummariesMatch s) := by
  unfold SummariesMatch; infer_instance

instance (s : Store) : Decidable (StoreInv s) := by
  unfold StoreInv; infer_instance

instance (s : Store) : Decidable (NamesOk s) := by
  unfold NamesOk; infer_instance

/-! ## Spec-side duplicate conditions (for claim C6)

`specClaimedDuplicate` is written from the claim's wording (set-based
shared-token count `k = |T_new ∩ T_old|`); `specAmendedDuplicate` differs
only in counting the old summary's significant tokens with multiplicity,
which is what the handler computes.  Both use the same exact integer
renderings of the float thresholds as `interactionSimilar`. -/

/-- A candidate `(P, D, S)` is claimed similar to an existing interaction:
    participant sets intersect, dates within 3 days, participant overlap
    `|P ∩ P'| / max(|P|, |P'|) ≥ 0.5`, and set-based shared-token count
    `|T_new ∩ T_old| ≥ min(3, 0.3 · |T_new|)`. -/
def specClaimedDuplicate (P : List String) (D S : String) (i : Interaction) : Bool :=
  let Pp := uniqueFirst i.contactIds
  let inter := Pp.filter (fun id => P.contains id)
  let tNew := uniqueFirst (summaryTokens S)
  let tOld := uniqueFirst (summaryTokens i.summary)
  let k := (tOld.filter (fun w => tNew.contains w)).length
  decide (0 < inter.length) && dateWithin3Days i.date D &&
    decide (max Pp.length P.length ≤ 2 * inter.length) &&
    decide (min 30 (3 * tNew.length) ≤ 10 * k)

/-- The amended condition: as claimed, but `k` counts the old summary's
    significant tokens with multiplicity (the handler filters the token
    list of the old summary, not its token set). -/
def specAmendedDuplicate (P : List String) (D S : String) (i : Interaction) : Bool :=
  let Pp := uniqueFirst i.contactIds
  let inter := Pp.filter (fun id => P.contains id)
  let tNew := uniqueFirst (summaryTokens S)
  let k := ((summaryTokens i.summary).filter (fun w => tNew.contains w)).length
  decide (0 < inter.length) && dateWithin3Days i.date D &&
    decide (max Pp.length P.length ≤ 2 * inter.length) &&
    decide (min 30 (3 * tNew.length) ≤ 10 * k)

/-! ## Concrete test fixtures -/

/-- A contact fixture with the given id, name and privacy flag. -/
def testContact (id name : String) (priv : Bool) : Contact :=
  { id := id, name := name, nickname := none, company := none, role := none
    howWeMet := none, tags := [], contactInfo := ⟨none, none, none⟩, notes := []
    expertise := [], priv := priv, createdAt := "t0", updatedAt := "t0" }

/-- An interaction fixture. -/
def testInteraction (id : String) (cids : List String) (date summary : String)
    (priv : Bool) (topics : List String) : Interaction :=
  { id := id, contactIds := cids, date := date, type := "meeting", summary := summary
    topics := topics, mentionedNextSteps := none, location := none, priv := priv
    createdAt := "t0", updatedAt := none }

/-- An empty (zero-interaction) summary entry fixture for a contact. -/
def emptySummaryFor (id name : String) : ContactSummary :=
  { id := id, name := name, company := none, role := none, tags := []
    expertise := [], interactionCount := 0, lastInteraction := none
    firstInteraction := none, topTopics := [], locations := [], recentSummary := ""
    mentionedNextSteps := [], notes := [] }

/-- C1 fixture: private Paula, public Bob, one group interaction of both,
    and Bob's (correctly empty, since the interaction has a private
    participant) summary entry. -/
def contactPaulaC1 : Contact := testContact ("c_pa") ("Paula Priv") true

def contactBobC1 : Contact := testContact ("c_b") ("Bob Pub") false

def interactionC1 : Interaction :=
  testInteraction ("i_1") ["c_pa", "c_b"] ("2026-03-01") ("Group dinner") false []

def storeC1 : Store :=
  { contacts := [contactPaulaC1, contactBobC1], interactions := [interactionC1]
    summaries := [emptySummaryFor ("c_b") ("Bob Pub")], config := ⟨"sekrit"⟩ }

def delArgsC1 : DeleteContactArgs :=
  { name := none, contactId := some "c_pa", deleteInteractions := true
    privateKey := some "sekrit" }

/-- C2/C7 witness fixture: Eve and Frank with one solo and one group
    interaction. -/
def contactEve : Contact := testContact ("c_e") ("Eve Adams") false

def contactFrank : Contact := testContact ("c_f") ("Frank Baker") false

def soloEve : Interaction :=
  testInteraction ("i_solo") ["c_e"] ("2026-02-20") ("Solo call") false []

def groupEveFrank : Interaction :=
  testInteraction ("i_grp") ["c_e", "c_f"] ("2026-02-25") ("Team meeting") false []

def storeEF : Store :=
  { contacts := [contactEve, contactFrank]
    interactions := [soloEve, groupEveFrank]
    summaries := [emptySummaryFor ("c_e") ("Eve Adams"), emptySummaryFor ("c_f") ("Frank Baker")]
    config := ⟨""⟩ }

def delArgsEFWarn : DeleteContactArgs :=
  { name := none, contactId := some "c_e", deleteInteractions := false, privateKey := none }

def delArgsEFCascade : DeleteContactArgs :=
  { name := none, contactId := some "c_e", deleteInteractions := true, privateKey := none }

/-- C4/C5/C9 fixture: public Alice, private Paula, one group interaction of
    both, plus a flagged-private solo interaction of Paula. -/
def contactAliceP : Contact := testContact ("c_al") ("Alice Pub") false

def contactPaulaP : Contact := testContact ("c_pp") ("Paula Priv") true

def groupAlicePaula : Interaction :=
  testInteraction ("i_g") ["c_al", "c_pp"] ("2026-03-01")
    ("secret project meeting about budget planning") false ["secret-topic"]

def privSoloPaula : Interaction :=
  testInteraction ("i_ps") ["c_pp"] ("2026-02-01") ("Private solo chat") true []

def storeP : Store :=
  { contacts := [contactAliceP, contactPaulaP]
    interactions := [groupAlicePaula, privSoloPaula]
    summaries := [], config := ⟨"sekrit"⟩ }

/-- C4 counterexample call: log an interaction whose resolved participant
    set contains the private contact, without a key. -/
def logArgsPrivTarget : LogInteractionArgs :=
  { contactNames := none, contactIds := some ["c_pp"], contactName := none, contactId := none
    summary := "coffee chat", date := some "2026-03-02", type := none, topics := none
    mentionedNextSteps := none, location := none, forceCreate := false, priv := false
    privateKey := none }

/-- C4 comparison call: the same shape of call aimed at an id that matches
    no record at all. -/
def logArgsAbsentTarget : LogInteractionArgs :=
  { contactNames := none, contactIds := some ["c_ghost"], contactName := none, contactId := none
    summary := "coffee chat", date := some "2026-03-02", type := none, topics := none
    mentionedNextSteps := none, location := none, forceCreate := false, priv := false
    privateKey := none }

/-- C5 counterexample call: Alice's detail view for a locked caller. -/
def getArgsAlice : GetContactArgs :=
  { name := none, contactId := some "c_al", privateKey := none }

/-- C9 call: a locked caller logs a public interaction similar to the
    private group interaction. -/
def logArgsC9 : LogInteractionArgs :=
  { contactNames := none, contactIds := some ["c_al"], contactName := none, contactId := none
    summary := "meeting about project budget", date := some "2026-03-02", type := none
    topics := none, mentionedNextSteps := none, location := none, forceCreate := false
    priv := false, privateKey := none }

/-- C6 fixture: one contact, an old interaction whose summary is one
    significant token repeated three times, and a new summary with ten
    distinct significant tokens sharing exactly one of them. -/
def contactAlexC6 : Contact := testContact ("c_x") ("Alex Example") false

def interactionOldC6 : Interaction :=
  testInteraction ("i_old") ["c_x"] ("2026-03-01") ("project project project") false []

def storeC6 : Store :=
  { contacts := [contactAlexC6], interactions := [interactionOldC6]
    summaries := [emptySummaryFor ("c_x") ("Alex Example")], config := ⟨""⟩ }

def logArgsC6 : LogInteractionArgs :=
  { contactNames := none, contactIds := some ["c_x"], contactName := none, contactId := none
    summary := "project alpha review budget planning timeline milestones deliverables stakeholders presentation"
    date := some "2026-03-01", type := none, topics := none, mentionedNextSteps := none
    location := none, forceCreate := false, priv := false, privateKey := none }

/-- C8 fixture: a validly named contact and a patch renaming it to a
    single-token name. -/
def contactAda : Contact := testContact ("c_ada") ("Ada Lovelace") false

def storeC8 : Store :=
  { contacts := [contactAda], interactions := []
    summaries := [emptySummaryFor ("c_ada") ("Ada Lovelace")], config := ⟨""⟩ }

def updArgsAdaRename : UpdateContactArgs :=
  { name := none, contactId := some "c_ada", updates := [("name", .vStr ("Ada"))]
    privateKey := none }

/-- C10 witness call: a patch whose keys are all outside the allow-lists. -/
def updArgsAdaBogus : UpdateContactArgs :=
  { name := none, contactId := some "c_ada"
    updates := [("id", .vStr ("c_evil")), ("createdAt", .vStr ("t9"))]
    privateKey := none }

def editArgsBogus : EditInteractionArgs :=
  { interactionId := "i_grp", updates := [("id", .vStr ("i_evil")), ("createdAt", .vStr ("t9"))]
    privateKey := none }

/-- C3 witness op: toggle Ada private. -/
def updArgsAdaPrivate : UpdateContactArgs :=
  { name := none, contactId := some "c_ada", updates := [("private", .vBool true)]
    privateKey := none }

/-! # Theorems -/

/-- Provable shorthand: the summaries list has an entry for id x. -/
def HasEntry (l : List ContactSummary) (x : String) : Prop := ∃ e ∈ l, e.id = x

/-- Provable shorthand: C holds a public contact of id x. -/
def PubContact (C : List Contact) (x : String) : Prop :=
  ∃ c ∈ C, c.id = x ∧ c.priv = false

/-- Equality of resolver results is decidable (payloads have decidable equality). -/
instance {e a : Type} [DecidableEq e] [DecidableEq a] : DecidableEq (Except e a) := fun x y =>
  match x, y with
  | .ok u, .ok v => if h : u = v then isTrue (by rw [h]) else isFalse (by simp [h])
  | .error u, .error v => if h : u = v then isTrue (by rw [h]) else isFalse (by simp [h])
  | .ok _, .error _ => isFalse (by simp)
  | .error _, .ok _ => isFalse (by simp)

/-- C5 witness call: Eve's detail view for a locked caller. -/
def getArgsEve : GetContactArgs :=
  { name := none, contactId := some "c_e", privateKey := none }

/-- C8 witness call payload: a single-word contact name. -/
def addArgsJames : AddContactArgs :=
  { name := "James", nickname := none, company := none, role := none, howWeMet := none
    tags := none, email := none, phone := none, linkedin := none, notes := none
    expertise := none, forceDuplicate := false, priv := false, privateKey := none }

/-- C1: evaluating the code at the failing input.  Cascade-deleting private
    Paula from a store where she shares one group interaction with public
    Bob succeeds and strips her from the interaction, but the operation's
    final summaries write (the start-of-call snapshot with Paula's entry
    spliced out) keeps Bob's stale zero-interaction entry, discarding what
    the batched rebuild it had just executed produced: recomputing the
    rebuild over the written interactions (third conjunct) — or
    `buildContactSummary` over the final store (fourth conjunct) — gives
    Bob an entry reflecting the now-visible interaction.  So the rebuild
    for the affected set is not executed as one read and one final write of
    the summaries collection, contradicting the claim. -/
theorem c1_cascade_delete_discards_batch_rebuild :
    (deleteContact delArgsC1 "t1" storeC1).1
      = .deleted (contactSummaryView contactPaulaC1) 0 1
    ∧ (deleteContact delArgsC1 "t1" storeC1).2.summaries
      = [emptySummaryFor ("c_b") ("Bob Pub")]
    ∧ rebuildContactSummaries ["c_b"] storeC1.contacts
        (deleteContact delArgsC1 "t1" storeC1).2.interactions storeC1.summaries
      ≠ [emptySummaryFor ("c_b") ("Bob Pub")]
    ∧ (buildContactSummary ("c_b") (deleteContact delArgsC1 "t1" storeC1).2.contacts
        (deleteContact delArgsC1 "t1" storeC1).2.interactions).map (·.interactionCount)
      = some 1
    ∧ ((deleteContact delArgsC1 "t1" storeC1).2.summaries.map (·.interactionCount)) = [0] := by
  decide

/-- C9: the duplicate detector scans the whole interaction collection with
    no privacy filtering, so a locked caller (no key) logging a public
    interaction receives a duplicate warning that exposes the private group
    interaction's id, date, type, summary, topics and un-redacted
    participant names — including the private contact's name. -/
theorem c9_duplicate_warning_exposes_private_interaction :
    isUnlocked logArgsC9.privateKey storeP.config = false
    ∧ isInteractionPrivate groupAlicePaula storeP.contacts = true
    ∧ (logInteraction logArgsC9 "i_new" "t1" "2026-03-02" storeP).1.isWarning = true
    ∧ (logInteraction logArgsC9 "i_new" "t1" "2026-03-02" storeP).1.similarList
      = [{ id := "i_g", date := "2026-03-01", type := "meeting"
           summary := "secret project meeting about budget planning"
           topics := ["secret-topic"]
           participantNames := ["Alice Pub", "Paula Priv"] }] := by
  decide

/-- C4 counterexample: a `log_interaction` whose resolved participant set
    contains an existing-but-private contact fails for a locked caller with
    a distinct cannot-log-private error, not the not-found signal the same
    call gets for a genuinely absent id — refuting the claim that every
    operation uses the same not-found signal for privacy-locked records. -/
theorem c4_log_interaction_distinct_private_signal :
    isUnlocked logArgsPrivTarget.privateKey storeP.config = false
    ∧ isContactPrivate contactPaulaP = true
    ∧ (logInteraction logArgsPrivTarget "i_n" "t1" "2026-03-02" storeP).1
      = .error ("Cannot log interaction with private contact without privateKey")
    ∧ (logInteraction logArgsAbsentTarget "i_n" "t1" "2026-03-02" storeP).1
      = .error ("Contact not found with ID: c_ghost")
    ∧ ("Cannot log interaction with private contact without privateKey" : String)
      ≠ "Contact not found with ID: c_ghost" := by
  decide

/-- C5 counterexample: for a locked caller, public Alice's detail view
    drops her group interaction with private Paula entirely (empty
    history), instead of keeping the interaction with Paula stripped from
    its participant projection as the claim states. -/
theorem c5_private_coparticipant_interaction_hidden :
    isUnlocked getArgsAlice.privateKey storeP.config = false
    ∧ isContactPrivate contactAliceP = false
    ∧ groupAlicePaula.contactIds.contains contactAliceP.id = true
    ∧ isInteractionPrivate groupAlicePaula storeP.contacts = true
    ∧ getContact getArgsAlice storeP = .found contactAliceP [] 0 := by
  decide

/-- C6 counterexample: logging a summary with ten distinct significant
    tokens against an old interaction whose summary is one shared token
    repeated three times produces a duplicate warning, although the
    claim's set-based condition `|T_new ∩ T_old| ≥ min(3, 0.3 · |T_new|)`
    (k = 1 < 3) holds for no existing interaction. -/
theorem c6_warning_without_claimed_token_condition :
    (logInteraction logArgsC6 "i_new" "t1" "2026-03-01" storeC6).1.isWarning = true
    ∧ (∀ i ∈ storeC6.interactions,
        specClaimedDuplicate ["c_x"] ("2026-03-01") logArgsC6.summary i = false) := by
  decide

/-- C8 counterexample: on a store satisfying the name invariant,
    `update_contact` applies a `name` patch with a single-token value
    without validation: the call succeeds and the stored contact's name no
    longer passes `validateContactName`, refuting preservation by
    update_contact name patches. -/
theorem c8_update_rename_breaks_name_invariant :
    NamesOk storeC8
    ∧ (updateContact updArgsAdaRename "t1" storeC8).1
      = .updated { contactAda with name := "Ada", updatedAt := "t1" }
    ∧ (updateContact updArgsAdaRename "t1" storeC8).2.contacts
      = [{ contactAda with name := "Ada", updatedAt := "t1" }]
    ∧ validateContactName ("Ada") ≠ none := by
  decide

end Crm

namespace Crm

theorem mem_uniqueFirstAux {a : String} :
    ∀ {l seen : List String}, a ∈ uniqueFirstAux seen l ↔ a ∈ l ∧ a ∉ seen := by
  intro l
  induction l with
  | nil => intro seen; simp [uniqueFirstAux]
  | cons x xs ih =>
    intro seen
    cases hx : seen.contains x with
    | true =>
      have hxs : x ∈ seen := List.elem_iff.mp hx
      simp only [uniqueFirstAux, hx, if_true]
      rw [ih]
      constructor
      · rintro ⟨h1, h2⟩
        exact ⟨List.mem_cons_of_mem _ h1, h2⟩
      · rintro ⟨h1, h2⟩
        rcases List.mem_cons.mp h1 with rfl | h1
        · exact absurd hxs h2
        · exact ⟨h1, h2⟩
    | false =>
      have hxs : x ∉ seen := by
        intro hm
        have hc : seen.contains x = true := List.elem_iff.mpr hm
        rw [hc] at hx
        simp at hx
      simp only [uniqueFirstAux, hx, Bool.false_eq_true, if_false]
      constructor
      · intro h
        rcases List.mem_cons.mp h with rfl | h
        · exact ⟨List.mem_cons_self _ _, hxs⟩
        · rw [ih] at h
          refine ⟨List.mem_cons_of_mem _ h.1, fun hmem => h.2 ?_⟩
          simp [hmem]
      · rintro ⟨h1, h2⟩
        by_cases hax : a = x
        · subst hax; exact List.mem_cons_self _ _
        · rcases List.mem_cons.mp h1 with rfl | h1
          · exact absurd rfl hax
          · apply List.mem_cons_of_mem
            rw [ih]
            refine ⟨h1, ?_⟩
            simp only [List.mem_append, List.mem_singleton]
            rintro (h | rfl)
            · exact h2 h
            · exact hax rfl

theorem mem_uniqueFirst {a : String} {l : List String} : a ∈ uniqueFirst l ↔ a ∈ l := by
  simp [uniqueFirst, mem_uniqueFirstAux]

theorem nodup_uniqueFirstAux : ∀ (l seen : List String), (uniqueFirstAux seen l).Nodup := by
  intro l
  induction l with
  | nil => intro seen; simp [uniqueFirstAux]
  | cons x xs ih =>
    intro seen
    cases hx : seen.contains x with
    | true => simpa only [uniqueFirstAux, hx, if_true] using ih seen
    | false =>
      simp only [uniqueFirstAux, hx, Bool.false_eq_true, if_false]
      refine List.nodup_cons.mpr ⟨fun hmem => ?_, ih _⟩
      rw [mem_uniqueFirstAux] at hmem
      exact hmem.2 (by simp)

theorem nodup_uniqueFirst (l : List String) : (uniqueFirst l).Nodup :=
  nodup_uniqueFirstAux l []

theorem uniqueFirstAux_eq_self :
    ∀ {l seen : List String}, l.Nodup → (∀ a ∈ l, a ∉ seen) → uniqueFirstAux seen l = l := by
  intro l
  induction l with
  | nil => intro seen _ _; rfl
  | cons x xs ih =>
    intro seen hnd hd
    have hx : seen.contains x = false := by
      cases hc : seen.contains x with
      | false => rfl
      | true => exact absurd (List.elem_iff.mp hc) (hd x (List.mem_cons_self _ _))
    simp only [uniqueFirstAux, hx, Bool.false_eq_true, if_false]
    rw [ih (List.nodup_cons.mp hnd).2]
    intro a ha
    simp only [List.mem_append, List.mem_singleton]
    rintro (h | rfl)
    · exact hd a (List.mem_cons_of_mem _ ha) h
    · exact (List.nodup_cons.mp hnd).1 ha

theorem uniqueFirst_eq_self {l : List String} (h : l.Nodup) : uniqueFirst l = l :=
  uniqueFirstAux_eq_self h (by simp)

end Crm

namespace Crm

theorem removeFirstSummary_map_id (l : List ContactSummary) (cid : String) :
    (removeFirstSummary l cid).map (·.id) = (l.map (·.id)).erase cid := by
  induction l with
  | nil => rfl
  | cons e es ih =>
    cases he : e.id == cid with
    | true =>
      simp only [removeFirstSummary, he, if_true, List.map_cons, List.erase_cons, he]
    | false =>
      simp only [removeFirstSummary, he, Bool.false_eq_true, if_false, List.map_cons,
        List.erase_cons, ih]

theorem removeFirstSummary_sublist (l : List ContactSummary) (cid : String) :
    (removeFirstSummary l cid).Sublist l := by
  induction l with
  | nil => exact List.Sublist.refl _
  | cons e es ih =>
    cases he : e.id == cid with
    | true => simp only [removeFirstSummary, he, if_true]; exact (List.sublist_cons_self e es)
    | false =>
      simp only [removeFirstSummary, he, Bool.false_eq_true, if_false]
      exact ih.cons₂ e

theorem mem_removeFirstSummary_of_ne {l : List ContactSummary} {cid : String}
    {e : ContactSummary} (he : e ∈ l) (hne : e.id ≠ cid) :
    e ∈ removeFirstSummary l cid := by
  induction l with
  | nil => cases he
  | cons f fs ih =>
    cases hf : f.id == cid with
    | true =>
      simp only [removeFirstSummary, hf, if_true]
      rcases List.mem_cons.mp he with rfl | h
      · exact absurd (by simpa using hf) hne
      · exact h
    | false =>
      simp only [removeFirstSummary, hf, Bool.false_eq_true, if_false]
      rcases List.mem_cons.mp he with rfl | h
      · exact List.mem_cons_self _ _
      · exact List.mem_cons_of_mem _ (ih h)

theorem upsertSummary_map_id {entry : ContactSummary} {cid : String}
    (he : entry.id = cid) :
    ∀ (l : List ContactSummary),
      (upsertSummary l cid entry).map (·.id) =
        if cid ∈ l.map (·.id) then l.map (·.id) else l.map (·.id) ++ [cid] := by
  intro l
  induction l with
  | nil => simp [upsertSummary, he]
  | cons f fs ih =>
    cases hf : f.id == cid with
    | true =>
      have : f.id = cid := by simpa using hf
      simp [upsertSummary, hf, he, this]
    | false =>
      have hne : f.id ≠ cid := by simpa using hf
      simp only [upsertSummary, hf, Bool.false_eq_true, if_false, List.map_cons, ih]
      by_cases hmem : cid ∈ fs.map (·.id)
      · simp [hmem, hne.symm]
      · simp [hmem, hne.symm]

theorem removeFirstContact_map_id (l : List Contact) (cid : String) :
    (removeFirstContact l cid).map (·.id) = (l.map (·.id)).erase cid := by
  induction l with
  | nil => rfl
  | cons e es ih =>
    cases he : e.id == cid with
    | true =>
      simp only [removeFirstContact, he, if_true, List.map_cons, List.erase_cons, he]
    | false =>
      simp only [removeFirstContact, he, Bool.false_eq_true, if_false, List.map_cons,
        List.erase_cons, ih]

theorem removeFirstContact_sublist (l : List Contact) (cid : String) :
    (removeFirstContact l cid).Sublist l := by
  induction l with
  | nil => exact List.Sublist.refl _
  | cons e es ih =>
    cases he : e.id == cid with
    | true => simp only [removeFirstContact, he, if_true]; exact (List.sublist_cons_self e es)
    | false =>
      simp only [removeFirstContact, he, Bool.false_eq_true, if_false]
      exact ih.cons₂ e

theorem mem_removeFirstContact_of_ne {l : List Contact} {cid : String}
    {c : Contact} (hc : c ∈ l) (hne : c.id ≠ cid) :
    c ∈ removeFirstContact l cid := by
  induction l with
  | nil => cases hc
  | cons f fs ih =>
    cases hf : f.id == cid with
    | true =>
      simp only [removeFirstContact, hf, if_true]
      rcases List.mem_cons.mp hc with rfl | h
      · exact absurd (by simpa using hf) hne
      · exact h
    | false =>
      simp only [removeFirstContact, hf, Bool.false_eq_true, if_false]
      rcases List.mem_cons.mp hc with rfl | h
      · exact List.mem_cons_self _ _
      · exact List.mem_cons_of_mem _ (ih h)

theorem replaceFirstContact_map_id {c' : Contact} {cid : String} (he : c'.id = cid) :
    ∀ (l : List Contact), (replaceFirstContact l cid c').map (·.id) = l.map (·.id) := by
  intro l
  induction l with
  | nil => rfl
  | cons f fs ih =>
    cases hf : f.id == cid with
    | true =>
      have : f.id = cid := by simpa using hf
      simp [replaceFirstContact, hf, he, this]
    | false =>
      simp [replaceFirstContact, hf, ih]

theorem mem_replaceFirstContact {l : List Contact} {cid : String} {c' d : Contact}
    (hd : d ∈ replaceFirstContact l cid c') : d = c' ∨ d ∈ l := by
  induction l with
  | nil => cases hd
  | cons f fs ih =>
    by_cases hf : (f.id == cid) = true
    · simp only [replaceFirstContact, hf, if_true] at hd
      rcases List.mem_cons.mp hd with rfl | h
      · exact Or.inl rfl
      · exact Or.inr (List.mem_cons_of_mem _ h)
    · simp only [replaceFirstContact, hf, if_false] at hd
      rcases List.mem_cons.mp hd with rfl | h
      · exact Or.inr (List.mem_cons_self _ _)
      · rcases ih h with h' | h'
        · exact Or.inl h'
        · exact Or.inr (List.mem_cons_of_mem _ h')

theorem mem_replaceFirstContact_of_ne {l : List Contact} {cid : String} {c' d : Contact}
    (hd : d ∈ l) (hne : d.id ≠ cid) : d ∈ replaceFirstContact l cid c' := by
  induction l with
  | nil => cases hd
  | cons f fs ih =>
    by_cases hf : (f.id == cid) = true
    · simp only [replaceFirstContact, hf, if_true]
      rcases List.mem_cons.mp hd with rfl | h
      · exact absurd (by simpa using hf) hne
      · exact List.mem_cons_of_mem _ h
    · simp only [replaceFirstContact, hf, if_false]
      rcases List.mem_cons.mp hd with rfl | h
      · exact List.mem_cons_self _ _
      · exact List.mem_cons_of_mem _ (ih h)

theorem find?_replaceFirstContact_self {c' : Contact} {cid : String} (he : c'.id = cid) :
    ∀ {l : List Contact}, cid ∈ l.map (·.id) →
      (replaceFirstContact l cid c').find? (fun c => c.id == cid) = some c' := by
  intro l
  induction l with
  | nil => intro h; cases h
  | cons f fs ih =>
    intro hmem
    by_cases hf : (f.id == cid) = true
    · simp only [replaceFirstContact, hf, if_true]
      simp [List.find?, he]
    · simp only [replaceFirstContact, hf, if_false]
      have : cid ∈ fs.map (·.id) := by
        rcases List.mem_cons.mp hmem with h | h
        · exact absurd (by simpa using h.symm) (by simpa using hf)
        · exact h
      simp only [List.find?, hf]
      exact ih this

/-! find? helpers -/

theorem find?_id_some {C : List Contact} {cid : String} {c : Contact}
    (h : C.find? (fun c => c.id == cid) = some c) : c ∈ C ∧ c.id = cid :=
  ⟨List.mem_of_find?_eq_some h, by simpa using List.find?_some h⟩

theorem find?_id_none {C : List Contact} {cid : String}
    (h : C.find? (fun c => c.id == cid) = none) : ∀ c ∈ C, c.id ≠ cid := by
  intro c hc
  have := List.find?_eq_none.mp h c hc
  simpa using this

theorem eq_of_nodup_ids {C : List Contact} (hC : (C.map (·.id)).Nodup)
    {c c' : Contact} (hc : c ∈ C) (hc' : c' ∈ C) (h : c.id = c'.id) : c = c' :=
  List.inj_on_of_nodup_map hC hc hc' h

/-! sort membership -/

theorem mem_insertByDateDesc {a i : Interaction} :
    ∀ {l : List Interaction}, a ∈ insertByDateDesc i l ↔ a = i ∨ a ∈ l := by
  intro l
  induction l with
  | nil => simp [insertByDateDesc]
  | cons j js ih =>
    by_cases hj : (strLt j.date i.date) = true
    · simp only [insertByDateDesc, hj, if_true]
      constructor
      · intro h
        rcases List.mem_cons.mp h with rfl | h
        · exact Or.inl rfl
        · exact Or.inr h
      · rintro (rfl | h)
        · exact List.mem_cons_self _ _
        · exact List.mem_cons_of_mem _ h
    · simp only [insertByDateDesc, hj, if_false]
      constructor
      · intro h
        rcases List.mem_cons.mp h with rfl | h
        · exact Or.inr (List.mem_cons_self _ _)
        · rcases ih.mp h with h' | h'
          · exact Or.inl h'
          · exact Or.inr (List.mem_cons_of_mem _ h')
      · rintro (rfl | h)
        · exact List.mem_cons_of_mem _ (ih.mpr (Or.inl rfl))
        · rcases List.mem_cons.mp h with rfl | h
          · exact List.mem_cons_self _ _
          · exact List.mem_cons_of_mem _ (ih.mpr (Or.inr h))

theorem mem_sortFold {a : Interaction} :
    ∀ {l acc : List Interaction},
      a ∈ l.foldl (fun acc i => insertByDateDesc i acc) acc ↔ a ∈ acc ∨ a ∈ l := by
  intro l
  induction l with
  | nil => intro acc; simp
  | cons i is ih =>
    intro acc
    simp only [List.foldl_cons]
    rw [ih]
    rw [mem_insertByDateDesc]
    constructor
    · rintro ((rfl | h) | h)
      · exact Or.inr (List.mem_cons_self _ _)
      · exact Or.inl h
      · exact Or.inr (List.mem_cons_of_mem _ h)
    · rintro (h | h)
      · exact Or.inl (Or.inr h)
      · rcases List.mem_cons.mp h with rfl | h
        · exact Or.inl (Or.inl rfl)
        · exact Or.inr h

theorem mem_sortByDateDesc {a : Interaction} {l : List Interaction} :
    a ∈ sortByDateDesc l ↔ a ∈ l := by
  simp [sortByDateDesc, mem_sortFold]

end Crm

namespace Crm

theorem hasEntry_iff_mem_map {l : List ContactSummary} {x : String} :
    HasEntry l x ↔ x ∈ l.map (·.id) := by
  simp [HasEntry, List.mem_map, eq_comm]

theorem buildContactSummary_some_id {cid : String} {C : List Contact}
    {I : List Interaction} {e : ContactSummary}
    (h : buildContactSummary cid C I = some e) : e.id = cid := by
  unfold buildContactSummary at h
  cases hf : C.find? (fun c => c.id == cid) with
  | none => rw [hf] at h; cases h
  | some c =>
    rw [hf] at h
    by_cases hp : isContactPrivate c
    · simp [hp] at h
    · simp only [hp, Bool.false_eq_true, if_false, Option.some_inj] at h
      have hcid := (find?_id_some hf).2
      rw [← h]
      exact hcid

theorem buildContactSummary_of_public {cid : String} {C : List Contact}
    (I : List Interaction) {c : Contact}
    (hf : C.find? (fun c => c.id == cid) = some c) (hp : c.priv = false) :
    ∃ e, buildContactSummary cid C I = some e := by
  unfold buildContactSummary
  rw [hf]
  simp [isContactPrivate, hp]

theorem buildContactSummary_of_missing {cid : String} {C : List Contact}
    (I : List Interaction) (hf : C.find? (fun c => c.id == cid) = none) :
    buildContactSummary cid C I = none := by
  unfold buildContactSummary
  rw [hf]

/-- rebuildStep preserves (or at the stepped id: repairs) the relation. -/
theorem rebuildStep_rel {C : List Contact} {I : List Interaction}
    {S : List ContactSummary} {cid : String}
    (hC : (C.map (·.id)).Nodup)
    (hS : (S.map (·.id)).Nodup)
    (hrel : ∀ x, x ≠ cid → (HasEntry S x ↔ PubContact C x))
    (hcid : C.find? (fun c => c.id == cid) = none → (HasEntry S cid ↔ PubContact C cid)) :
    (∀ x, HasEntry (rebuildStep C I S cid) x ↔ PubContact C x) ∧
      ((rebuildStep C I S cid).map (·.id)).Nodup := by
  unfold rebuildStep
  cases hf : C.find? (fun c => c.id == cid) with
  | none =>
    simp only [buildContactSummary_of_missing I hf]
    constructor
    · intro x
      by_cases hx : x = cid
      · subst hx; exact hcid hf
      · exact hrel x hx
    · exact hS
  | some c =>
    obtain ⟨hcmem, hcid'⟩ := find?_id_some hf
    cases hp : isContactPrivate c with
    | true =>
      simp only [hp, if_true]
      constructor
      · intro x
        rw [hasEntry_iff_mem_map, removeFirstSummary_map_id]
        by_cases hx : x = cid
        · subst hx
          constructor
          · intro hmem
            exact absurd hmem (hS.not_mem_erase)
          · rintro ⟨c', hc', hcid'', hcpriv⟩
            have : c' = c := eq_of_nodup_ids hC hc' hcmem (hcid''.trans hcid'.symm)
            subst this
            rw [isContactPrivate] at hp
            rw [hp] at hcpriv
            cases hcpriv
        · rw [List.Nodup.mem_erase_iff hS]
          rw [← hasEntry_iff_mem_map]
          constructor
          · rintro ⟨_, h⟩
            exact (hrel x hx).mp h
          · intro h
            exact ⟨hx, (hrel x hx).mpr h⟩
      · rw [removeFirstSummary_map_id]
        exact hS.erase cid
    | false =>
      simp only [hp, Bool.false_eq_true, if_false]
      obtain ⟨e, he⟩ := buildContactSummary_of_public I hf (by simpa [isContactPrivate] using hp)
      have heid : e.id = cid := buildContactSummary_some_id he
      simp only [he]
      constructor
      · intro x
        rw [hasEntry_iff_mem_map, upsertSummary_map_id heid]
        by_cases hx : x = cid
        · subst hx
          constructor
          · intro _
            exact ⟨c, hcmem, hcid', by simpa [isContactPrivate] using hp⟩
          · intro _
            by_cases hmem : x ∈ S.map (fun e => e.id)
            · rw [if_pos hmem]; exact hmem
            · rw [if_neg hmem]; simp
        · have : (x ∈ if cid ∈ S.map (·.id) then S.map (·.id) else S.map (·.id) ++ [cid]) ↔
              x ∈ S.map (·.id) := by
            by_cases hmem : cid ∈ S.map (·.id) <;> simp [hmem, hx]
          rw [this, ← hasEntry_iff_mem_map]
          exact hrel x hx
      · rw [upsertSummary_map_id heid]
        by_cases hmem : cid ∈ S.map (·.id)
        · simpa [hmem] using hS
        · simp only [hmem, if_false]
          exact hS.append (by simp) (by simpa using fun h => hmem h)

end Crm

namespace Crm

theorem foldl_rebuildStep_rel {C : List Contact} {I : List Interaction}
    (hC : (C.map (·.id)).Nodup) :
    ∀ (ids : List String) (S : List ContactSummary),
      (S.map (·.id)).Nodup →
      (∀ x, HasEntry S x ↔ PubContact C x) →
      (∀ x, HasEntry (ids.foldl (rebuildStep C I) S) x ↔ PubContact C x) ∧
        (((ids.foldl (rebuildStep C I) S)).map (·.id)).Nodup := by
  intro ids
  induction ids with
  | nil => intro S hS hrel; exact ⟨hrel, hS⟩
  | cons cid rest ih =>
    intro S hS hrel
    simp only [List.foldl_cons]
    have hstep := @rebuildStep_rel C I S cid hC hS (fun x _ => hrel x) (fun _ => hrel cid)
    exact ih _ hstep.2 hstep.1

/-- Batched rebuild preserves the store relation for any id set. -/
theorem rebuild_rel {C : List Contact} {I : List Interaction}
    {S : List ContactSummary} (ids : List String)
    (hC : (C.map (·.id)).Nodup) (hS : (S.map (·.id)).Nodup)
    (hrel : ∀ x, HasEntry S x ↔ PubContact C x) :
    (∀ x, HasEntry (rebuildContactSummaries ids C I S) x ↔ PubContact C x) ∧
      ((rebuildContactSummaries ids C I S).map (·.id)).Nodup := by
  unfold rebuildContactSummaries
  by_cases hids : ids.isEmpty
  · simp only [hids, if_true]
    exact ⟨hrel, hS⟩
  · simp only [hids, Bool.false_eq_true, if_false]
    exact foldl_rebuildStep_rel hC ids S hS hrel

/-- A singleton rebuild of an existing contact repairs the relation at that
    contact's id. -/
theorem rebuild_single_repair {C : List Contact} {I : List Interaction}
    {S : List ContactSummary} {cid : String} {c : Contact}
    (hC : (C.map (·.id)).Nodup) (hS : (S.map (·.id)).Nodup)
    (hf : C.find? (fun c => c.id == cid) = some c)
    (hrel : ∀ x, x ≠ cid → (HasEntry S x ↔ PubContact C x)) :
    (∀ x, HasEntry (rebuildContactSummaries [cid] C I S) x ↔ PubContact C x) ∧
      ((rebuildContactSummaries [cid] C I S).map (·.id)).Nodup := by
  have : rebuildContactSummaries [cid] C I S = rebuildStep C I S cid := by
    unfold rebuildContactSummaries
    simp
  rw [this]
  exact rebuildStep_rel hC hS hrel (fun hnone => by rw [hf] at hnone; cases hnone)

/-- The canonical unfolded form of `Inv`. -/
theorem storeInv_iff {s : Store} :
    StoreInv s ↔ ((s.contacts.map (·.id)).Nodup ∧ (s.summaries.map (·.id)).Nodup ∧
      ∀ x, HasEntry s.summaries x ↔ PubContact s.contacts x) := by
  unfold StoreInv SummariesMatch
  refine and_congr_right fun _ => and_congr_right fun _ => ?_
  constructor
  · rintro ⟨h1, h2⟩ x
    constructor
    · rintro ⟨e, he, rfl⟩
      exact h1 e he
    · rintro ⟨c, hc, rfl, hcp⟩
      obtain ⟨e, he, heid⟩ := h2 c hc hcp
      exact ⟨e, he, heid⟩
  · intro h
    constructor
    · intro e he
      exact (h e.id).mp ⟨e, he, rfl⟩
    · intro c hc hcp
      obtain ⟨e, he, heid⟩ := (h c.id).mpr ⟨c, hc, rfl, hcp⟩
      exact ⟨e, he, heid⟩

/-- Changing only the interactions collection and rebuilding any id set
    preserves the invariant. -/
theorem inv_interactions_rebuild {s : Store} (h : StoreInv s) (ids : List String)
    (I' : List Interaction) :
    StoreInv (applyRebuild ids { s with interactions := I' }) := by
  rw [storeInv_iff] at h ⊢
  obtain ⟨hC, hS, hrel⟩ := h
  have := @rebuild_rel s.contacts I' s.summaries ids hC hS hrel
  exact ⟨hC, this.2, this.1⟩

/-- Appending a fresh contact and rebuilding its id preserves the
    invariant. -/
theorem inv_add_rebuild {s : Store} (h : StoreInv s) {newC : Contact}
    (hfresh : ∀ c ∈ s.contacts, c.id ≠ newC.id) :
    StoreInv (applyRebuild [newC.id] { s with contacts := s.contacts ++ [newC] }) := by
  rw [storeInv_iff] at h ⊢
  obtain ⟨hC, hS, hrel⟩ := h
  have hC' : ((s.contacts ++ [newC]).map (·.id)).Nodup := by
    rw [List.map_append]
    refine List.Nodup.append hC (by simp) ?_
    intro x hx hy
    simp only [List.map_cons, List.map_nil, List.mem_singleton] at hy
    obtain ⟨c, hc, rfl⟩ := List.mem_map.mp hx
    exact hfresh c hc hy
  have hfind : (s.contacts ++ [newC]).find? (fun c => c.id == newC.id) = some newC := by
    rw [List.find?_append]
    have h1 : s.contacts.find? (fun c => c.id == newC.id) = none := by
      rw [List.find?_eq_none]
      intro c hc
      simpa using hfresh c hc
    rw [h1]
    simp [List.find?]
  have hrel' : ∀ x, x ≠ newC.id →
      (HasEntry s.summaries x ↔ PubContact (s.contacts ++ [newC]) x) := by
    intro x hx
    rw [hrel x]
    unfold PubContact
    constructor
    · rintro ⟨c, hc, rfl, hcp⟩
      exact ⟨c, List.mem_append_left _ hc, rfl, hcp⟩
    · rintro ⟨c, hc, rfl, hcp⟩
      rcases List.mem_append.mp hc with hc | hc
      · exact ⟨c, hc, rfl, hcp⟩
      · simp only [List.mem_singleton] at hc
        subst hc
        exact absurd rfl hx
  have := @rebuild_single_repair _ s.interactions _ _ _ hC' hS hfind hrel'
  exact ⟨hC', this.2, this.1⟩

/-- Replacing an existing contact by one with the same id and rebuilding
    that id preserves the invariant. -/
theorem inv_replace_rebuild {s : Store} (h : StoreInv s) {c c' : Contact}
    (hc : c ∈ s.contacts) (hid : c'.id = c.id) :
    StoreInv (applyRebuild [c.id] { s with contacts := replaceFirstContact s.contacts c.id c' }) := by
  rw [storeInv_iff] at h ⊢
  obtain ⟨hC, hS, hrel⟩ := h
  have hC' : ((replaceFirstContact s.contacts c.id c').map (·.id)).Nodup := by
    rw [replaceFirstContact_map_id hid]
    exact hC
  have hmem : c.id ∈ s.contacts.map (·.id) := List.mem_map.mpr ⟨c, hc, rfl⟩
  have hfind := @find?_replaceFirstContact_self c' _ hid _ hmem
  have hrel' : ∀ x, x ≠ c.id →
      (HasEntry s.summaries x ↔ PubContact (replaceFirstContact s.contacts c.id c') x) := by
    intro x hx
    rw [hrel x]
    unfold PubContact
    constructor
    · rintro ⟨d, hd, rfl, hdp⟩
      exact ⟨d, mem_replaceFirstContact_of_ne hd hx, rfl, hdp⟩
    · rintro ⟨d, hd, rfl, hdp⟩
      rcases mem_replaceFirstContact hd with rfl | hd
      · exact absurd hid hx
      · exact ⟨d, hd, rfl, hdp⟩
  have := @rebuild_single_repair _ s.interactions _ _ _ hC' hS hfind hrel'
  exact ⟨hC', this.2, this.1⟩

/-- Removing a contact and its summary entry preserves the invariant,
    whatever happens to the interactions collection and config. -/
theorem inv_remove_pair {s : Store} (h : StoreInv s) (cid : String)
    (I' : List Interaction) (cfg : CrmConfig) :
    StoreInv { contacts := removeFirstContact s.contacts cid
               interactions := I'
               summaries := removeFirstSummary s.summaries cid
               config := cfg } := by
  rw [storeInv_iff] at h ⊢
  obtain ⟨hC, hS, hrel⟩ := h
  refine ⟨?_, ?_, ?_⟩
  · simpa [removeFirstContact_map_id] using hC.erase cid
  · simpa [removeFirstSummary_map_id] using hS.erase cid
  · intro x
    show HasEntry (removeFirstSummary s.summaries cid) x ↔
      PubContact (removeFirstContact s.contacts cid) x
    rw [hasEntry_iff_mem_map, removeFirstSummary_map_id,
      List.Nodup.mem_erase_iff hS, ← hasEntry_iff_mem_map, hrel x]
    unfold PubContact
    constructor
    · rintro ⟨hx, d, hd, rfl, hdp⟩
      exact ⟨d, mem_removeFirstContact_of_ne hd hx, rfl, hdp⟩
    · rintro ⟨d, hd, rfl, hdp⟩
      have hdl : d ∈ s.contacts := (removeFirstContact_sublist s.contacts cid).mem hd
      refine ⟨?_, d, hdl, rfl, hdp⟩
      intro hx
      subst hx
      have : d.id ∈ (removeFirstContact s.contacts d.id).map (·.id) :=
        List.mem_map.mpr ⟨d, hd, rfl⟩
      rw [removeFirstContact_map_id] at this
      exact hC.not_mem_erase this

end Crm

namespace Crm

theorem applyContactUpdate_id (c : Contact) (kv : String × UpdVal) :
    (applyContactUpdate c kv).id = c.id := by
  unfold applyContactUpdate setContactTopLevel setContactInfoField
  repeat' split
  all_goals rfl

theorem applyContactUpdates_id (c : Contact) (updates : List (String × UpdVal)) :
    (applyContactUpdates c updates).id = c.id := by
  unfold applyContactUpdates
  induction updates generalizing c with
  | nil => rfl
  | cons kv rest ih =>
    simp only [List.foldl_cons]
    rw [ih]
    exact applyContactUpdate_id c kv

theorem resolveContact_found_mem {name contactId : Option String} {C : List Contact}
    {c : Contact} (h : resolveContact name contactId C = .found c) : c ∈ C := by
  unfold resolveContact at h
  cases contactId with
  | some cid =>
    cases hf : C.find? (fun c => c.id == cid) with
    | some d =>
      simp only [hf, Resolution.found.injEq] at h
      subst h
      exact List.mem_of_find?_eq_some hf
    | none => exact absurd h (by simp [hf])
  | none =>
    cases name with
    | some n =>
      cases hh : (findContactByName n C).head? with
      | some d =>
        simp only [hh, Resolution.found.injEq] at h
        subst h
        have hd : d ∈ findContactByName n C := List.mem_of_mem_head? (by simp [hh])
        exact List.mem_of_mem_filter hd
      | none => exact absurd h (by simp [hh])
    | none => exact absurd h (by simp)

theorem inv_managePrivacy (args : ManagePrivacyArgs) (s : Store) (h : StoreInv s) :
    StoreInv (managePrivacy args s).2 := by
  unfold managePrivacy
  repeat' split
  all_goals exact h

theorem inv_addContact (args : AddContactArgs) (cid now : String) (s : Store)
    (h : StoreInv s) (hfresh : ∀ c ∈ s.contacts, c.id ≠ cid) :
    StoreInv (addContact args cid now s).2 := by
  simp only [addContact]
  cases hv : validateContactName args.name with
  | some err => exact h
  | none =>
    simp only
    split
    · exact h
    · exact inv_add_rebuild h hfresh

theorem inv_updateContact (args : UpdateContactArgs) (now : String) (s : Store)
    (h : StoreInv s) : StoreInv (updateContact args now s).2 := by
  simp only [updateContact]
  cases hr : resolveContact args.name args.contactId s.contacts with
  | missingArg => exact h
  | notFound => exact h
  | found c =>
    simp only
    split
    · exact h
    · have hmem := resolveContact_found_mem hr
      have hid : ({ applyContactUpdates c args.updates with updatedAt := now } : Contact).id
          = c.id := applyContactUpdates_id c args.updates
      exact inv_replace_rebuild h hmem hid

theorem inv_logInteraction (args : LogInteractionArgs) (iid now today : String)
    (s : Store) (h : StoreInv s) : StoreInv (logInteraction args iid now today s).2 := by
  simp only [logInteraction]
  cases hr : resolveParticipants args s.contacts with
  | error msg => exact h
  | ok resolved =>
    simp only
    repeat' split
    all_goals first | exact h | exact inv_interactions_rebuild h _ _

theorem inv_editInteraction (args : EditInteractionArgs) (now : String) (s : Store)
    (h : StoreInv s) : StoreInv (editInteraction args now s).2 := by
  simp only [editInteraction]
  cases hr : s.interactions.find? (fun i => i.id == args.interactionId) with
  | none => exact h
  | some i =>
    simp only
    repeat' split
    all_goals first | exact h | exact inv_interactions_rebuild h _ _

theorem inv_deleteInteraction (args : DeleteInteractionArgs) (s : Store)
    (h : StoreInv s) : StoreInv (deleteInteraction args s).2 := by
  simp only [deleteInteraction]
  cases hr : s.interactions.find? (fun i => i.id == args.interactionId) with
  | none => exact h
  | some i =>
    simp only
    repeat' split
    all_goals first | exact h | exact inv_interactions_rebuild h _ _

theorem inv_deleteContact (args : DeleteContactArgs) (now : String) (s : Store)
    (h : StoreInv s) : StoreInv (deleteContact args now s).2 := by
  simp only [deleteContact]
  cases hr : resolveContact args.name args.contactId s.contacts with
  | missingArg => exact h
  | notFound => exact h
  | found c =>
    simp only
    split
    · exact h
    · split
      · exact h
      · split
        · exact inv_remove_pair h c.id _ s.config
        · exact inv_remove_pair h c.id s.interactions s.config

end Crm

namespace Crm

theorem storeInv_private_no_entry {s : Store} (h : StoreInv s) :
    ∀ c ∈ s.contacts, c.priv = true → ∀ e ∈ s.summaries, e.id ≠ c.id := by
  rw [storeInv_iff] at h
  obtain ⟨hC, hS, hrel⟩ := h
  intro c hc hp e he heq
  obtain ⟨c', hc', hcid, hcp⟩ := (hrel c.id).mp ⟨e, he, heq⟩
  have := eq_of_nodup_ids hC hc' hc hcid
  subst this
  rw [hp] at hcp
  cases hcp

/-- C3 (with the inductive hypotheses the code maintains: duplicate-free
contact and summary ids and fresh generated ids): every repository operation
preserves the invariant that a summary entry with a contact's id exists iff
that contact exists and is not private; consequently no private contact ever
has a summary entry after any operation. -/
theorem c3_main :
    ∀ (op : Op) (s : Store), StoreInv s → op.Fresh s →
      StoreInv (op.apply s) ∧
        (∀ c ∈ s.contacts, c.priv = true → ∀ e ∈ s.summaries, e.id ≠ c.id) := by
  intro op s h hf
  refine ⟨?_, storeInv_private_no_entry h⟩
  cases op with
  | search args => exact h
  | get args => exact h
  | add args cid now => exact inv_addContact args cid now s h hf
  | update args now => exact inv_updateContact args now s h
  | logI args iid now today => exact inv_logInteraction args iid now today s h
  | editI args now => exact inv_editInteraction args now s h
  | delI args => exact inv_deleteInteraction args s h
  | delC args now => exact inv_deleteContact args now s h
  | recent args => exact h
  | nextSteps args => exact h
  | privacy args => exact inv_managePrivacy args s h

theorem c3_main_witness :
    StoreInv storeC8 ∧
      (StoreInv ((Op.update updArgsAdaPrivate "t1").apply storeC8) ∧
        (∀ c ∈ storeC8.contacts, c.priv = true → ∀ e ∈ storeC8.summaries, e.id ≠ c.id)) :=
  ⟨by decide, c3_main (Op.update updArgsAdaPrivate "t1") storeC8 (by decide) (by trivial)⟩

/-! name invariant -/

theorem applyContactUpdate_name (c : Contact) (kv : String × UpdVal)
    (hk : kv.1 ≠ "name") : (applyContactUpdate c kv).name = c.name := by
  unfold applyContactUpdate setContactTopLevel setContactInfoField
  repeat' split
  all_goals first | rfl | simp_all

theorem applyContactUpdates_name (c : Contact) (updates : List (String × UpdVal))
    (hk : ∀ kv ∈ updates, kv.1 ≠ "name") :
    (applyContactUpdates c updates).name = c.name := by
  unfold applyContactUpdates
  induction updates generalizing c with
  | nil => rfl
  | cons kv rest ih =>
    simp only [List.foldl_cons]
    rw [ih _ fun kv' h => hk kv' (List.mem_cons_of_mem _ h)]
    exact applyContactUpdate_name c kv (hk kv (List.mem_cons_self _ _))

theorem namesOk_addContact (args : AddContactArgs) (cid now : String) (s : Store)
    (h : NamesOk s) : NamesOk (addContact args cid now s).2 := by
  simp only [addContact]
  cases hv : validateContactName args.name with
  | some err => exact h
  | none =>
    simp only
    split
    · exact h
    · intro c hc
      rcases List.mem_append.mp hc with hc | hc
      · exact h c hc
      · simp only [List.mem_singleton] at hc
        subst hc
        exact hv

theorem namesOk_updateContact (args : UpdateContactArgs) (now : String) (s : Store)
    (h : NamesOk s) (hk : ∀ kv ∈ args.updates, kv.1 ≠ "name") :
    NamesOk (updateContact args now s).2 := by
  simp only [updateContact]
  cases hr : resolveContact args.name args.contactId s.contacts with
  | missingArg => exact h
  | notFound => exact h
  | found c =>
    simp only
    split
    · exact h
    · intro d hd
      rcases mem_replaceFirstContact hd with rfl | hd
      · show validateContactName (applyContactUpdates c args.updates).name = none
        rw [applyContactUpdates_name c args.updates hk]
        exact h c (resolveContact_found_mem hr)
      · exact h d hd

theorem namesOk_deleteContact (args : DeleteContactArgs) (now : String) (s : Store)
    (h : NamesOk s) : NamesOk (deleteContact args now s).2 := by
  have hrm : ∀ cid, NamesOk { s with contacts := removeFirstContact s.contacts cid } := by
    intro cid c hc
    exact h c ((removeFirstContact_sublist s.contacts cid).mem hc)
  simp only [deleteContact]
  cases hr : resolveContact args.name args.contactId s.contacts with
  | missingArg => exact h
  | notFound => exact h
  | found c =>
    simp only
    repeat' split
    all_goals first | exact h | exact fun d hd => hrm c.id d hd

/-- C8 (amended): add_contact rejects a name that fails validateContactName
with the validation error and no mutation, and every operation that does not
patch the name field preserves the names invariant; update_contact applies a
name patch without validation, so preservation holds only for name-preserving
operations. -/
theorem c8_amended_main :
    (∀ (args : AddContactArgs) (cid now : String) (s : Store) (err : String),
        validateContactName args.name = some err →
        addContact args cid now s
          = (.error (err ++ ". Please ask the user for their full name."), s))
    ∧ ∀ (op : Op) (s : Store), NamesOk s → NamePreserving op → NamesOk (op.apply s) := by
  constructor
  · intro args cid now s err hval
    simp only [addContact, hval]
  · intro op s h hp
    cases op with
    | search args => exact h
    | get args => exact h
    | add args cid now => exact namesOk_addContact args cid now s h
    | update args now => exact namesOk_updateContact args now s h hp
    | logI args iid now today =>
      simp only [Op.apply, logInteraction]
      cases hr : resolveParticipants args s.contacts with
      | error msg => exact h
      | ok resolved =>
        simp only
        repeat' split
        all_goals exact h
    | editI args now =>
      simp only [Op.apply, editInteraction]
      cases hr : s.interactions.find? (fun i => i.id == args.interactionId) with
      | none => exact h
      | some i =>
        simp only
        repeat' split
        all_goals exact h
    | delI args =>
      simp only [Op.apply, deleteInteraction]
      cases hr : s.interactions.find? (fun i => i.id == args.interactionId) with
      | none => exact h
      | some i =>
        simp only
        repeat' split
        all_goals exact h
    | delC args now => exact namesOk_deleteContact args now s h
    | recent args => exact h
    | nextSteps args => exact h
    | privacy args =>
      simp only [Op.apply, managePrivacy]
      repeat' split
      all_goals exact h

end Crm

namespace Crm

/-- C2: when the resolved contact still has referencing interactions and the
cascade flag is off, delete_contact returns a warning carrying the related,
solo and group reference counts computed from the pre-call store, and the
returned store is identical to the input store: no collection is mutated. -/
theorem c2_main :
    ∀ (args : DeleteContactArgs) (now : String) (s : Store) (c : Contact),
      resolveContact args.name args.contactId s.contacts = .found c →
      (isContactPrivate c && !(isUnlocked args.privateKey s.config)) = false →
      args.deleteInteractions = false →
      (s.interactions.filter (fun i => i.contactIds.contains c.id)).length > 0 →
      (deleteContact args now s).2 = s ∧
        (deleteContact args now s).1.isWarning = true ∧
        (deleteContact args now s).1.warningCounts = some
          ((s.interactions.filter (fun i => i.contactIds.contains c.id)).length,
           ((s.interactions.filter (fun i => i.contactIds.contains c.id)).filter
              (fun i => i.contactIds.length == 1)).length,
           ((s.interactions.filter (fun i => i.contactIds.contains c.id)).filter
              (fun i => i.contactIds.length > 1)).length) := by
  intro args now s c hres hvis hcas hrel
  simp only [deleteContact, hres, hvis, Bool.false_eq_true, if_false, hcas, Bool.not_false,
    Bool.true_and]
  rw [if_pos (by simpa using hrel)]
  exact ⟨rfl, rfl, rfl⟩

end Crm

namespace Crm

theorem eq_of_nodup_iids {I : List Interaction} (hI : (I.map (·.id)).Nodup)
    {i j : Interaction} (hi : i ∈ I) (hj : j ∈ I) (h : i.id = j.id) : i = j :=
  List.inj_on_of_nodup_map hI hi hj h

/-- C7: cascade delete_contact removes the contact record, drops every solo
interaction of the contact, keeps every group interaction with the contact's
id filtered out of its participants and updatedAt refreshed, keeps unrelated
interactions, leaves no summary entry for the contact, and in particular a
two-participant interaction is left with exactly the other participant. -/
theorem c7_main :
    ∀ (args : DeleteContactArgs) (now : String) (s : Store) (c : Contact),
      resolveContact args.name args.contactId s.contacts = .found c →
      (isContactPrivate c && !(isUnlocked args.privateKey s.config)) = false →
      args.deleteInteractions = true →
      (s.contacts.map (·.id)).Nodup →
      (s.interactions.map (·.id)).Nodup →
      (s.summaries.map (·.id)).Nodup →
      (∃ dc uc, (deleteContact args now s).1 = .deleted (contactSummaryView c) dc uc)
      ∧ (∀ d ∈ (deleteContact args now s).2.contacts, d.id ≠ c.id)
      ∧ (∀ d ∈ s.contacts, d.id ≠ c.id → d ∈ (deleteContact args now s).2.contacts)
      ∧ (∀ i ∈ s.interactions, i.contactIds.contains c.id = true → i.contactIds.length = 1 →
          ∀ j ∈ (deleteContact args now s).2.interactions, j.id ≠ i.id)
      ∧ (∀ i ∈ s.interactions, i.contactIds.contains c.id = true → i.contactIds.length ≠ 1 →
          { i with contactIds := i.contactIds.filter (fun x => x != c.id)
                   updatedAt := some now } ∈ (deleteContact args now s).2.interactions)
      ∧ (∀ i ∈ s.interactions, i.contactIds.contains c.id = false →
          i ∈ (deleteContact args now s).2.interactions)
      ∧ (∀ e ∈ (deleteContact args now s).2.summaries, e.id ≠ c.id)
      ∧ (∀ b, b ≠ c.id → ∀ i ∈ s.interactions,
          (i.contactIds = [c.id, b] ∨ i.contactIds = [b, c.id]) →
          { i with contactIds := [b], updatedAt := some now }
            ∈ (deleteContact args now s).2.interactions) := by
  intro args now s c hres hvis hcas hnC hnI hnS
  have hBs : ∀ e ∈ removeFirstSummary s.summaries c.id, e.id ≠ c.id := by
    intro e he heq
    have : c.id ∈ (removeFirstSummary s.summaries c.id).map (·.id) :=
      List.mem_map.mpr ⟨e, he, heq⟩
    rw [removeFirstSummary_map_id] at this
    exact hnS.not_mem_erase this
  have hBc : ∀ d ∈ removeFirstContact s.contacts c.id, d.id ≠ c.id := by
    intro d hd heq
    have : c.id ∈ (removeFirstContact s.contacts c.id).map (·.id) :=
      List.mem_map.mpr ⟨d, hd, heq⟩
    rw [removeFirstContact_map_id] at this
    exact hnC.not_mem_erase this
  simp only [deleteContact, hres, hvis, Bool.false_eq_true, if_false, hcas, Bool.not_true,
    Bool.false_and, if_false]
  set related := s.interactions.filter (fun i => i.contactIds.contains c.id) with hrel
  by_cases hlen : related.length > 0
  · rw [if_pos (by simpa using hlen)]
    set solos := related.filter (fun i => i.contactIds.length == 1) with hsolos
    set soloIds := solos.map (fun i => i.id) with hsoloIds
    set filtered := s.interactions.filter (fun i => !(soloIds.contains i.id)) with hfiltered
    have hmemFiltered : ∀ {i : Interaction}, i ∈ s.interactions →
        i.id ∉ soloIds → i ∈ filtered := by
      intro i hi hni
      rw [hfiltered]
      refine List.mem_filter.mpr ⟨hi, ?_⟩
      simp only [Bool.not_eq_true']
      cases hc : soloIds.contains i.id with
      | false => rfl
      | true => exact absurd (List.elem_iff.mp hc) hni
    have hsoloNotIn : ∀ {i : Interaction}, i ∈ s.interactions →
        i.contactIds.contains c.id = true → i.contactIds.length ≠ 1 → i.id ∉ soloIds := by
      intro i hi hcont hlen1 hmem
      rw [hsoloIds] at hmem
      obtain ⟨j, hj, hjid⟩ := List.mem_map.mp hmem
      have hjs : j ∈ s.interactions := by
        rw [hsolos] at hj
        exact List.mem_of_mem_filter (List.mem_of_mem_filter hj)
      have := eq_of_nodup_iids hnI hjs hi hjid
      subst this
      rw [hsolos] at hj
      have := (List.mem_filter.mp hj).2
      simp only [beq_iff_eq] at this
      exact hlen1 this
    have hnosolo : ∀ {i : Interaction}, i ∈ s.interactions →
        i.contactIds.contains c.id = false → i.id ∉ soloIds := by
      intro i hi hcont hmem
      rw [hsoloIds] at hmem
      obtain ⟨j, hj, hjid⟩ := List.mem_map.mp hmem
      have hjs : j ∈ s.interactions := by
        rw [hsolos] at hj
        exact List.mem_of_mem_filter (List.mem_of_mem_filter hj)
      have := eq_of_nodup_iids hnI hjs hi hjid
      subst this
      have hjrel : j ∈ related := by
        rw [hsolos] at hj
        exact List.mem_of_mem_filter hj
      rw [hrel] at hjrel
      have := (List.mem_filter.mp hjrel).2
      rw [hcont] at this
      cases this
    refine ⟨⟨_, _, rfl⟩, hBc, ?_, ?_, ?_, ?_, hBs, ?_⟩
    · intro d hd hne
      exact mem_removeFirstContact_of_ne hd hne
    · -- solos removed
      intro i hi hcont hlen1 j hj heq
      obtain ⟨i', hi', rfl⟩ := List.mem_map.mp hj
      have hidEq : (if i'.contactIds.contains c.id = true then
          { i' with contactIds := i'.contactIds.filter (fun x => x != c.id)
                    updatedAt := some now } else i').id = i'.id := by
        split <;> rfl
      rw [hidEq] at heq
      have hi's : i' ∈ s.interactions := List.mem_of_mem_filter hi'
      have hi'solo : i'.id ∉ soloIds := by
        have hthis := (List.mem_filter.mp hi').2
        simp only [Bool.not_eq_true'] at hthis
        intro hmem
        have hc2 : soloIds.contains i'.id = true := List.elem_iff.mpr hmem
        rw [hc2] at hthis
        cases hthis
      apply hi'solo
      rw [heq, hsoloIds]
      refine List.mem_map.mpr ⟨i, ?_, rfl⟩
      rw [hsolos]
      refine List.mem_filter.mpr ⟨?_, by simpa using hlen1⟩
      rw [hrel]
      exact List.mem_filter.mpr ⟨hi, hcont⟩
    · -- groups stripped
      intro i hi hcont hlen1
      have hfi : i ∈ filtered := hmemFiltered hi (hsoloNotIn hi hcont hlen1)
      refine List.mem_map.mpr ⟨i, hfi, ?_⟩
      rw [if_pos hcont]
    · -- untouched interactions survive
      intro i hi hcont
      have hfi : i ∈ filtered := hmemFiltered hi (hnosolo hi hcont)
      refine List.mem_map.mpr ⟨i, hfi, ?_⟩
      rw [if_neg (by rw [hcont]; exact Bool.false_ne_true)]
    · -- two-participant consequence
      intro b hb i hi hids
      have hcont : i.contactIds.contains c.id = true := by
        rcases hids with h | h <;> simp [h]
      have hlen1 : i.contactIds.length ≠ 1 := by
        rcases hids with h | h <;> simp [h]
      have hfi : i ∈ filtered := hmemFiltered hi (hsoloNotIn hi hcont hlen1)
      refine List.mem_map.mpr ⟨i, hfi, ?_⟩
      rw [if_pos hcont]
      have hfilter : i.contactIds.filter (fun x => x != c.id) = [b] := by
        rcases hids with h | h <;>
          · rw [h]
            simp [List.filter_cons, bne_self_eq_false, bne_iff_ne, hb]
      rw [hfilter]
  · rw [if_neg (by simpa using hlen)]
    have hvac : ∀ i ∈ s.interactions, ¬(i.contactIds.contains c.id = true) := by
      intro i hi hc
      apply hlen
      have hmem : i ∈ related := by
        rw [hrel]
        exact List.mem_filter.mpr ⟨hi, hc⟩
      exact List.length_pos.mpr (List.ne_nil_of_mem hmem)
    refine ⟨⟨_, _, rfl⟩, hBc, ?_, ?_, ?_, ?_, hBs, ?_⟩
    · intro d hd hne
      exact mem_removeFirstContact_of_ne hd hne
    · intro i hi hcont _ j _ _
      exact hvac i hi hcont
    · intro i hi hcont _
      exact absurd hcont (hvac i hi)
    · intro i hi _
      exact hi
    · intro b hb i hi hids
      have hcont : i.contactIds.contains c.id = true := by
        rcases hids with h | h <;> simp [h]
      exact absurd hcont (hvac i hi)

end Crm

namespace Crm

theorem applyContactUpdate_skip (c : Contact) (key : String) (v : UpdVal)
    (h1 : allowedTopLevel.contains key = false)
    (h2 : allowedContactInfo.contains key = false) :
    applyContactUpdate c (key, v) = c := by
  unfold applyContactUpdate
  simp only [h1, h2, Bool.false_eq_true, if_false]

theorem applyInteractionUpdate_skip (i : Interaction) (key : String) (v : UpdVal)
    (h : allowedInteractionFields.contains key = false) :
    applyInteractionUpdate i (key, v) = i := by
  unfold applyInteractionUpdate
  simp only [h, Bool.false_eq_true, if_false]

theorem applyContactUpdates_skip_all (c : Contact) (updates : List (String × UpdVal))
    (h : ∀ kv ∈ updates, allowedTopLevel.contains kv.1 = false ∧
      allowedContactInfo.contains kv.1 = false) :
    applyContactUpdates c updates = c := by
  unfold applyContactUpdates
  induction updates generalizing c with
  | nil => rfl
  | cons kv rest ih =>
    simp only [List.foldl_cons]
    have hk := h kv (List.mem_cons_self _ _)
    have : applyContactUpdate c kv = c := by
      obtain ⟨k, v⟩ := kv
      exact applyContactUpdate_skip c k v hk.1 hk.2
    rw [this]
    exact ih c fun kv' h' => h kv' (List.mem_cons_of_mem _ h')

theorem applyInteractionUpdates_skip_all (i : Interaction) (updates : List (String × UpdVal))
    (h : ∀ kv ∈ updates, allowedInteractionFields.contains kv.1 = false) :
    applyInteractionUpdates i updates = i := by
  unfold applyInteractionUpdates
  induction updates generalizing i with
  | nil => rfl
  | cons kv rest ih =>
    simp only [List.foldl_cons]
    have hk := h kv (List.mem_cons_self _ _)
    have : applyInteractionUpdate i kv = i := by
      obtain ⟨k, v⟩ := kv
      exact applyInteractionUpdate_skip i k v hk
    rw [this]
    exact ih i fun kv' h' => h kv' (List.mem_cons_of_mem _ h')

/-- C10: update keys outside the allow-lists are ignored: a single
non-allow-listed key leaves a contact (except updatedAt) and an interaction
unchanged, and update_contact / edit_interaction called with patches made
only of such keys still return the updated record, equal to the original
with only updatedAt refreshed. -/
theorem c10_main :
    (∀ (c : Contact) (key : String) (v : UpdVal),
        allowedTopLevel.contains key = false → allowedContactInfo.contains key = false →
        applyContactUpdate c (key, v) = c)
    ∧ (∀ (i : Interaction) (key : String) (v : UpdVal),
        allowedInteractionFields.contains key = false →
        applyInteractionUpdate i (key, v) = i)
    ∧ (∀ (args : UpdateContactArgs) (now : String) (s : Store) (c : Contact),
        resolveContact args.name args.contactId s.contacts = .found c →
        (isContactPrivate c && !(isUnlocked args.privateKey s.config)) = false →
        (∀ kv ∈ args.updates, allowedTopLevel.contains kv.1 = false ∧
          allowedContactInfo.contains kv.1 = false) →
        (updateContact args now s).1 = .updated { c with updatedAt := now }
        ∧ (updateContact args now s).2.contacts
            = replaceFirstContact s.contacts c.id { c with updatedAt := now })
    ∧ (∀ (args : EditInteractionArgs) (now : String) (s : Store) (i : Interaction),
        s.interactions.find? (fun j => j.id == args.interactionId) = some i →
        (isInteractionPrivate i s.contacts && !(isUnlocked args.privateKey s.config)) = false →
        (∀ kv ∈ args.updates, allowedInteractionFields.contains kv.1 = false) →
        (editInteraction args now s).1 = .updated { i with updatedAt := some now }) := by
  refine ⟨applyContactUpdate_skip, applyInteractionUpdate_skip, ?_, ?_⟩
  · intro args now s c hres hvis hkeys
    simp only [updateContact, hres, hvis, Bool.false_eq_true, if_false,
      applyContactUpdates_skip_all c args.updates hkeys]
    exact ⟨trivial, rfl⟩
  · intro args now s i hfind hvis hkeys
    simp only [editInteraction, hfind, hvis, Bool.false_eq_true, if_false,
      applyInteractionUpdates_skip_all i args.updates hkeys]

end Crm

namespace Crm

theorem interactionPrivate_false_elim {i : Interaction} {C : List Contact}
    (h : isInteractionPrivate i C = false) :
    i.priv = false ∧ ∀ id ∈ i.contactIds, ∀ c,
      C.find? (fun c => c.id == id) = some c → c.priv = false := by
  unfold isInteractionPrivate at h
  rw [Bool.or_eq_false_iff] at h
  refine ⟨h.1, ?_⟩
  intro id hid c hfind
  have := List.any_eq_false.mp h.2 id hid
  unfold resolvesPrivate at this
  rw [hfind] at this
  unfold isContactPrivate at this
  simpa using this

theorem redact_locked_of_public {i : Interaction} {C : List Contact}
    (h : isInteractionPrivate i C = false) :
    redactInteractionParticipants i C false =
      { contactIds := i.contactIds
        participantNames := i.contactIds.map (contactNameOf C)
        participantCount := i.contactIds.length } := by
  unfold redactInteractionParticipants
  simp only [Bool.false_eq_true, if_false]
  have hfil : i.contactIds.filter (participantVisible C) = i.contactIds := by
    apply List.filter_eq_self.mpr
    intro id hid
    unfold participantVisible
    cases hfind : C.find? (fun c => c.id == id) with
    | none => rfl
    | some c =>
      have := (interactionPrivate_false_elim h).2 id hid c hfind
      simp [isContactPrivate, this]
  rw [hfil]

/-- C5 (amended): when get_contact assembles a non-private contact's history
for a locked caller, any interaction with a private co-participant is omitted
from the returned history entirely, and every surviving view keeps its full
participant id list, mapped names and count: nothing is stripped from views
that survive. -/
theorem c5_amended :
    ∀ (args : GetContactArgs) (s : Store) (c : Contact),
      isUnlocked args.privateKey s.config = false →
      resolveContact args.name args.contactId s.contacts = .found c →
      isContactPrivate c = false →
      ∃ views, getContact args s = .found c views views.length
        ∧ (∀ i ∈ s.interactions, i.contactIds.contains c.id = true →
            isInteractionPrivate i s.contacts = true → ∀ v ∈ views, v.interaction ≠ i)
        ∧ (∀ v ∈ views, isInteractionPrivate v.interaction s.contacts = false
            ∧ v.contactIds = v.interaction.contactIds
            ∧ v.participantNames = v.interaction.contactIds.map (contactNameOf s.contacts)
            ∧ v.participantCount = v.interaction.contactIds.length) := by
  intro args s c hlock hres hpub
  simp only [getContact, hres, hlock, hpub, Bool.false_and, Bool.false_eq_true, if_false,
    filterPrivateInteractions]
  refine ⟨_, rfl, ?_, ?_⟩
  · intro i hi hcont hpriv v hv heq
    obtain ⟨i', hi', rfl⟩ := List.mem_map.mp hv
    have hmem : i' ∈ (s.interactions.filter (fun j => j.contactIds.contains c.id)).filter
        (fun j => !(isInteractionPrivate j s.contacts)) := mem_sortByDateDesc.mp hi'
    have hnp := (List.mem_filter.mp hmem).2
    simp only [Bool.not_eq_true'] at hnp
    have : (mkInteractionView i' (redactInteractionParticipants i' s.contacts false)).interaction
        = i' := rfl
    rw [this] at heq
    rw [heq] at hnp
    rw [hpriv] at hnp
    cases hnp
  · intro v hv
    obtain ⟨i', hi', rfl⟩ := List.mem_map.mp hv
    have hmem : i' ∈ (s.interactions.filter (fun j => j.contactIds.contains c.id)).filter
        (fun j => !(isInteractionPrivate j s.contacts)) := mem_sortByDateDesc.mp hi'
    have hnp := (List.mem_filter.mp hmem).2
    simp only [Bool.not_eq_true'] at hnp
    have hred := @redact_locked_of_public _ s.contacts hnp
    refine ⟨hnp, ?_, ?_, ?_⟩ <;>
      simp [mkInteractionView, hred]

end Crm

namespace Crm

/-- C4 (amended): reads and writes that target a privacy-locked record fail
with exactly the not-found error produced for a genuinely absent id and leave
the store unchanged, for get/update/delete contact and edit/delete
interaction; the one exception is log_interaction, which rejects a resolved
private participant with the distinct error message about private contacts,
not a not-found signal. -/
theorem c4_amended :
    ∀ (s : Store),
      (∀ (cid : String) (pk : Option String),
        (∀ d ∈ s.contacts, d.id ≠ cid) →
          getContact { name := none, contactId := some cid, privateKey := pk } s
            = .error ("Contact not found: " ++ cid))
      ∧ (∀ (cid : String) (pk : Option String) (c : Contact),
        s.contacts.find? (fun d => d.id == cid) = some c →
        isContactPrivate c = true → isUnlocked pk s.config = false →
          getContact { name := none, contactId := some cid, privateKey := pk } s
            = .error ("Contact not found: " ++ cid))
      ∧ (∀ (cid : String) (pk : Option String) (upd : List (String × UpdVal)),
        (∀ d ∈ s.contacts, d.id ≠ cid) →
          updateContact { name := none, contactId := some cid, updates := upd, privateKey := pk } "t" s
            = (.error ("Contact not found: " ++ cid), s))
      ∧ (∀ (cid : String) (pk : Option String) (upd : List (String × UpdVal)) (c : Contact),
        s.contacts.find? (fun d => d.id == cid) = some c →
        isContactPrivate c = true → isUnlocked pk s.config = false →
          updateContact { name := none, contactId := some cid, updates := upd, privateKey := pk } "t" s
            = (.error ("Contact not found: " ++ cid), s))
      ∧ (∀ (cid : String) (pk : Option String) (casc : Bool),
        (∀ d ∈ s.contacts, d.id ≠ cid) →
          deleteContact { name := none, contactId := some cid, deleteInteractions := casc, privateKey := pk } "t" s
            = (.error ("Contact not found: " ++ cid), s))
      ∧ (∀ (cid : String) (pk : Option String) (casc : Bool) (c : Contact),
        s.contacts.find? (fun d => d.id == cid) = some c →
        isContactPrivate c = true → isUnlocked pk s.config = false →
          deleteContact { name := none, contactId := some cid, deleteInteractions := casc, privateKey := pk } "t" s
            = (.error ("Contact not found: " ++ cid), s))
      ∧ (∀ (iid : String) (pk : Option String) (upd : List (String × UpdVal)),
        s.interactions.find? (fun j => j.id == iid) = none →
          editInteraction { interactionId := iid, updates := upd, privateKey := pk } "t" s
            = (.error ("Interaction not found: " ++ iid), s))
      ∧ (∀ (iid : String) (pk : Option String) (upd : List (String × UpdVal)) (i : Interaction),
        s.interactions.find? (fun j => j.id == iid) = some i →
        isInteractionPrivate i s.contacts = true → isUnlocked pk s.config = false →
          editInteraction { interactionId := iid, updates := upd, privateKey := pk } "t" s
            = (.error ("Interaction not found: " ++ iid), s))
      ∧ (∀ (iid : String) (pk : Option String),
        s.interactions.find? (fun j => j.id == iid) = none →
          deleteInteraction { interactionId := iid, privateKey := pk } s
            = (.error ("Interaction not found: " ++ iid), s))
      ∧ (∀ (iid : String) (pk : Option String) (i : Interaction),
        s.interactions.find? (fun j => j.id == iid) = some i →
        isInteractionPrivate i s.contacts = true → isUnlocked pk s.config = false →
          deleteInteraction { interactionId := iid, privateKey := pk } s
            = (.error ("Interaction not found: " ++ iid), s))
      ∧ (∀ (args : LogInteractionArgs) (iid now today : String) (resolved : List String),
        resolveParticipants args s.contacts = .ok resolved →
        (uniqueFirst resolved).any (resolvesPrivate s.contacts) = true →
        isUnlocked args.privateKey s.config = false →
          logInteraction args iid now today s
            = (.error ("Cannot log interaction with private contact without privateKey"), s)) := by
  intro s
  refine ⟨?_, ?_, ?_, ?_, ?_, ?_, ?_, ?_, ?_, ?_, ?_⟩
  · intro cid pk habs
    have hf : s.contacts.find? (fun d => d.id == cid) = none :=
      List.find?_eq_none.mpr (fun d hd => by simpa using habs d hd)
    simp only [getContact, resolveContact, hf]
    rfl
  · intro cid pk c hfind hpriv hlock
    simp only [getContact, resolveContact, hfind, hpriv, hlock]
    rfl
  · intro cid pk upd habs
    have hf : s.contacts.find? (fun d => d.id == cid) = none :=
      List.find?_eq_none.mpr (fun d hd => by simpa using habs d hd)
    simp only [updateContact, resolveContact, hf]
    rfl
  · intro cid pk upd c hfind hpriv hlock
    simp only [updateContact, resolveContact, hfind, hpriv, hlock]
    rfl
  · intro cid pk casc habs
    have hf : s.contacts.find? (fun d => d.id == cid) = none :=
      List.find?_eq_none.mpr (fun d hd => by simpa using habs d hd)
    simp only [deleteContact, resolveContact, hf]
    rfl
  · intro cid pk casc c hfind hpriv hlock
    simp only [deleteContact, resolveContact, hfind, hpriv, hlock]
    rfl
  · intro iid pk upd hnone
    simp only [editInteraction, hnone]
  · intro iid pk upd i hfind hpriv hlock
    simp only [editInteraction, hfind, hpriv, hlock]
    rfl
  · intro iid pk hnone
    simp only [deleteInteraction, hnone]
  · intro iid pk i hfind hpriv hlock
    simp only [deleteInteraction, hfind, hpriv, hlock]
    rfl
  · intro args iid now today resolved hres hany hlock
    simp only [logInteraction, hres, hany, hlock]
    rfl

end Crm

namespace Crm

theorem any_eq_true_iff_filter_pos {α : Type} (l : List α) (p : α → Bool) :
    l.any p = true ↔ 0 < (l.filter p).length := by
  rw [List.any_eq_true, List.length_pos_iff_exists_mem]
  constructor
  · rintro ⟨a, ha, hp⟩
    exact ⟨a, List.mem_filter.mpr ⟨ha, hp⟩⟩
  · rintro ⟨a, ha⟩
    have := List.mem_filter.mp ha
    exact ⟨a, this.1, this.2⟩

theorem code_sim_iff_amended {P : List String} {D S : String}
    {i : Interaction} (hnd : i.contactIds.Nodup) :
    (interactionNearby P D i = true ∧
      interactionSimilar P (uniqueFirst (summaryTokens S)) i = true) ↔
    specAmendedDuplicate P D S i = true := by
  unfold interactionNearby interactionSimilar specAmendedDuplicate
  rw [uniqueFirst_eq_self hnd]
  simp only [Bool.and_eq_true, decide_eq_true_eq]
  constructor
  · rintro ⟨⟨hA, hW⟩, hif⟩
    by_cases hlt : 2 * (i.contactIds.filter (fun id => P.contains id)).length <
        max i.contactIds.length P.length
    · rw [if_pos hlt] at hif
      cases hif
    · rw [if_neg hlt] at hif
      refine ⟨⟨⟨?_, hW⟩, Nat.not_lt.mp hlt⟩, by simpa using hif⟩
      exact (any_eq_true_iff_filter_pos _ _).mp hA
  · rintro ⟨⟨⟨hpos, hW⟩, hle⟩, hT⟩
    refine ⟨⟨(any_eq_true_iff_filter_pos _ _).mpr hpos, hW⟩, ?_⟩
    rw [if_neg (Nat.not_lt.mpr hle)]
    simpa using hT

/-- C6 (amended): without forceCreate, log_interaction warns exactly when
some existing interaction shares a participant, lies within 3 days, has
participant overlap ratio at least one half, and the count of the existing
summary's significant tokens that occur in the new summary's token multiset
(counted with multiplicity over the existing summary, membership in the new
one) reaches min(3, 0.3 times the count of new-summary significant tokens);
with forceCreate the interaction is appended and returned unconditionally. -/
theorem c6_amended_main :
    ∀ (args : LogInteractionArgs) (iid now today : String) (s : Store)
      (resolved : List String),
      resolveParticipants args s.contacts = .ok resolved →
      ((uniqueFirst resolved).any (resolvesPrivate s.contacts)
        && !(isUnlocked args.privateKey s.config)) = false →
      (∀ i ∈ s.interactions, i.contactIds.Nodup) →
      (args.forceCreate = false →
        ((logInteraction args iid now today s).1.isWarning = true ↔
          ∃ i ∈ s.interactions,
            specAmendedDuplicate (uniqueFirst resolved) (args.date.getD today)
              args.summary i = true))
      ∧ (args.forceCreate = true →
        (logInteraction args iid now today s).1
          = .logged (mkLoggedInteraction iid (uniqueFirst resolved) args (args.date.getD today) now)
              ((uniqueFirst resolved).map (contactNameOf s.contacts))
              (uniqueFirst resolved).length
        ∧ (logInteraction args iid now today s).2.interactions
          = s.interactions ++ [mkLoggedInteraction iid (uniqueFirst resolved) args
              (args.date.getD today) now]) := by
  intro args iid now today s resolved hres hpriv hnodups
  constructor
  · intro hforce
    simp only [logInteraction, hres, hpriv, Bool.false_eq_true, if_false, hforce]
    have hiff : (0 < ((s.interactions.filter
          (interactionNearby (uniqueFirst resolved) (args.date.getD today))).filter
            (interactionSimilar (uniqueFirst resolved)
              (uniqueFirst (summaryTokens args.summary)))).length) ↔
        ∃ i ∈ s.interactions,
          specAmendedDuplicate (uniqueFirst resolved) (args.date.getD today)
            args.summary i = true := by
      rw [List.length_pos_iff_exists_mem]
      constructor
      · rintro ⟨i, hi⟩
        obtain ⟨hi1, hsim⟩ := List.mem_filter.mp hi
        obtain ⟨hi2, hnear⟩ := List.mem_filter.mp hi1
        exact ⟨i, hi2, (code_sim_iff_amended (hnodups i hi2)).mp ⟨hnear, hsim⟩⟩
      · rintro ⟨i, hi, hdup⟩
        obtain ⟨hnear, hsim⟩ := (code_sim_iff_amended (hnodups i hi)).mpr hdup
        exact ⟨i, List.mem_filter.mpr ⟨List.mem_filter.mpr ⟨hi, hnear⟩, hsim⟩⟩
    by_cases hsim : (0 < ((s.interactions.filter
        (interactionNearby (uniqueFirst resolved) (args.date.getD today))).filter
          (interactionSimilar (uniqueFirst resolved)
            (uniqueFirst (summaryTokens args.summary)))).length)
    · rw [if_pos (by simpa using hsim)]
      simp only [LogInteractionResult.isWarning]
      simpa using hiff.mp hsim
    · rw [if_neg (by simpa using hsim)]
      simp only [LogInteractionResult.isWarning]
      constructor
      · intro h
        cases h
      · intro h
        exact absurd (hiff.mpr h) hsim
  · intro hforce
    simp only [logInteraction, hres, hpriv, Bool.false_eq_true, if_false, hforce]
    exact ⟨rfl, rfl⟩

end Crm

namespace Crm

theorem c2_main_witness :
    (resolveContact delArgsEFWarn.name delArgsEFWarn.contactId storeEF.contacts
        = .found contactEve
      ∧ (isContactPrivate contactEve && !(isUnlocked delArgsEFWarn.privateKey storeEF.config))
        = false
      ∧ delArgsEFWarn.deleteInteractions = false
      ∧ (storeEF.interactions.filter (fun i => i.contactIds.contains contactEve.id)).length > 0)
    ∧ ((deleteContact delArgsEFWarn "t1" storeEF).2 = storeEF
      ∧ (deleteContact delArgsEFWarn "t1" storeEF).1.isWarning = true
      ∧ (deleteContact delArgsEFWarn "t1" storeEF).1.warningCounts = some (2, 1, 1)) :=
  ⟨⟨by decide, by decide, rfl, by decide⟩, by
    have h := c2_main delArgsEFWarn "t1" storeEF contactEve (by decide) (by decide) rfl (by decide)
    exact ⟨h.1, h.2.1, by rw [h.2.2]; decide⟩⟩

theorem c5_amended_witness :
    (isUnlocked getArgsEve.privateKey storeEF.config = false
      ∧ resolveContact getArgsEve.name getArgsEve.contactId storeEF.contacts = .found contactEve
      ∧ isContactPrivate contactEve = false)
    ∧ (∃ views, getContact getArgsEve storeEF = .found contactEve views views.length
        ∧ (∀ i ∈ storeEF.interactions, i.contactIds.contains contactEve.id = true →
            isInteractionPrivate i storeEF.contacts = true → ∀ v ∈ views, v.interaction ≠ i)
        ∧ (∀ v ∈ views, isInteractionPrivate v.interaction storeEF.contacts = false
            ∧ v.contactIds = v.interaction.contactIds
            ∧ v.participantNames = v.interaction.contactIds.map (contactNameOf storeEF.contacts)
            ∧ v.participantCount = v.interaction.contactIds.length)) :=
  ⟨⟨by decide, by decide, by decide⟩,
    c5_amended getArgsEve storeEF contactEve (by decide) (by decide) (by decide)⟩

theorem c6_amended_main_witness :
    (resolveParticipants logArgsC6 storeC6.contacts = .ok ["c_x"]
      ∧ ((uniqueFirst ["c_x"]).any (resolvesPrivate storeC6.contacts)
          && !(isUnlocked logArgsC6.privateKey storeC6.config)) = false
      ∧ (∀ i ∈ storeC6.interactions, i.contactIds.Nodup))
    ∧ ((logArgsC6.forceCreate = false →
        ((logInteraction logArgsC6 "i_new" "t1" "2026-03-01" storeC6).1.isWarning = true ↔
          ∃ i ∈ storeC6.interactions,
            specAmendedDuplicate (uniqueFirst ["c_x"]) (logArgsC6.date.getD ("2026-03-01"))
              logArgsC6.summary i = true))
      ∧ (logArgsC6.forceCreate = true →
        (logInteraction logArgsC6 "i_new" "t1" "2026-03-01" storeC6).1
          = .logged (mkLoggedInteraction "i_new" (uniqueFirst ["c_x"]) logArgsC6
              (logArgsC6.date.getD ("2026-03-01")) "t1")
              ((uniqueFirst ["c_x"]).map (contactNameOf storeC6.contacts))
              (uniqueFirst ["c_x"]).length
        ∧ (logInteraction logArgsC6 "i_new" "t1" "2026-03-01" storeC6).2.interactions
          = storeC6.interactions ++ [mkLoggedInteraction "i_new" (uniqueFirst ["c_x"]) logArgsC6
              (logArgsC6.date.getD ("2026-03-01")) "t1"])) :=
  ⟨⟨by decide, by decide, by decide⟩,
    c6_amended_main logArgsC6 "i_new" "t1" "2026-03-01" storeC6 ["c_x"]
      (by decide) (by decide) (by decide)⟩

theorem c7_main_witness :
    (resolveContact delArgsEFCascade.name delArgsEFCascade.contactId storeEF.contacts
        = .found contactEve
      ∧ (isContactPrivate contactEve && !(isUnlocked delArgsEFCascade.privateKey storeEF.config))
        = false
      ∧ delArgsEFCascade.deleteInteractions = true
      ∧ (storeEF.contacts.map (·.id)).Nodup
      ∧ (storeEF.interactions.map (·.id)).Nodup
      ∧ (storeEF.summaries.map (·.id)).Nodup)
    ∧ ((∃ dc uc, (deleteContact delArgsEFCascade "t1" storeEF).1
          = .deleted (contactSummaryView contactEve) dc uc)
      ∧ (∀ d ∈ (deleteContact delArgsEFCascade "t1" storeEF).2.contacts, d.id ≠ contactEve.id)
      ∧ (∀ d ∈ storeEF.contacts, d.id ≠ contactEve.id →
          d ∈ (deleteContact delArgsEFCascade "t1" storeEF).2.contacts)
      ∧ (∀ i ∈ storeEF.interactions, i.contactIds.contains contactEve.id = true →
          i.contactIds.length = 1 →
          ∀ j ∈ (deleteContact delArgsEFCascade "t1" storeEF).2.interactions, j.id ≠ i.id)
      ∧ (∀ i ∈ storeEF.interactions, i.contactIds.contains contactEve.id = true →
          i.contactIds.length ≠ 1 →
          { i with contactIds := i.contactIds.filter (fun x => x != contactEve.id)
                   updatedAt := some "t1" }
            ∈ (deleteContact delArgsEFCascade "t1" storeEF).2.interactions)
      ∧ (∀ i ∈ storeEF.interactions, i.contactIds.contains contactEve.id = false →
          i ∈ (deleteContact delArgsEFCascade "t1" storeEF).2.interactions)
      ∧ (∀ e ∈ (deleteContact delArgsEFCascade "t1" storeEF).2.summaries, e.id ≠ contactEve.id)
      ∧ (∀ b, b ≠ contactEve.id → ∀ i ∈ storeEF.interactions,
          (i.contactIds = [contactEve.id, b] ∨ i.contactIds = [b, contactEve.id]) →
          { i with contactIds := [b], updatedAt := some "t1" }
            ∈ (deleteContact delArgsEFCascade "t1" storeEF).2.interactions)) :=
  ⟨⟨by decide, by decide, rfl, by decide, by decide, by decide⟩,
    c7_main delArgsEFCascade "t1" storeEF contactEve (by decide) (by decide) rfl
      (by decide) (by decide) (by decide)⟩

theorem c8_amended_main_witness :
    (validateContactName ("James")
        = some ("Contact name must include both first and last name. Got: \"James\"")
      ∧ addContact addArgsJames "c_new" "t1" storeC8
        = (.error ("Contact name must include both first and last name. Got: \"James\". Please ask the user for their full name."), storeC8))
    ∧ (NamesOk storeC8
      ∧ NamesOk ((Op.update updArgsAdaBogus "t1").apply storeC8)) :=
  ⟨⟨by decide,
      c8_amended_main.1 addArgsJames "c_new" "t1" storeC8
        ("Contact name must include both first and last name. Got: \"James\"") (by decide)⟩,
    ⟨by decide,
      c8_amended_main.2 (Op.update updArgsAdaBogus "t1") storeC8 (by decide)
        (by intro kv hkv; fin_cases hkv <;> decide)⟩⟩

theorem c4_amended_witness :
    ((∀ d ∈ storeP.contacts, d.id ≠ "c_ghost")
      ∧ storeP.contacts.find? (fun d => d.id == "c_pp") = some contactPaulaP
      ∧ isContactPrivate contactPaulaP = true
      ∧ isUnlocked none storeP.config = false
      ∧ resolveParticipants logArgsPrivTarget storeP.contacts = .ok ["c_pp"]
      ∧ (uniqueFirst ["c_pp"]).any (resolvesPrivate storeP.contacts) = true)
    ∧ (getContact { name := none, contactId := some "c_ghost", privateKey := none } storeP
        = .error ("Contact not found: c_ghost")
      ∧ getContact { name := none, contactId := some "c_pp", privateKey := none } storeP
        = .error ("Contact not found: c_pp")
      ∧ logInteraction logArgsPrivTarget "i_n" "t1" "2026-03-02" storeP
        = (.error ("Cannot log interaction with private contact without privateKey"), storeP)) :=
  ⟨⟨by decide, by decide, by decide, by decide, by decide, by decide⟩,
    ⟨(c4_amended storeP).1 "c_ghost" none (by decide),
     (c4_amended storeP).2.1 "c_pp" none contactPaulaP (by decide) (by decide) (by decide),
     (c4_amended storeP).2.2.2.2.2.2.2.2.2.2 logArgsPrivTarget "i_n" "t1" "2026-03-02" ["c_pp"]
       (by decide) (by decide) (by decide)⟩⟩

theorem c10_main_witness :
    ((∀ kv ∈ updArgsAdaBogus.updates, allowedTopLevel.contains kv.1 = false ∧
        allowedContactInfo.contains kv.1 = false)
      ∧ resolveContact updArgsAdaBogus.name updArgsAdaBogus.contactId storeC8.contacts
        = .found contactAda
      ∧ (isContactPrivate contactAda && !(isUnlocked updArgsAdaBogus.privateKey storeC8.config))
        = false
      ∧ storeEF.interactions.find? (fun j => j.id == "i_grp") = some groupEveFrank
      ∧ (∀ kv ∈ editArgsBogus.updates, allowedInteractionFields.contains kv.1 = false))
    ∧ ((updateContact updArgsAdaBogus "t1" storeC8).1
        = .updated { contactAda with updatedAt := "t1" }
      ∧ (editInteraction editArgsBogus "t1" storeEF).1
        = .updated { groupEveFrank with updatedAt := some "t1" }) :=
  ⟨⟨by decide, by decide, by decide, by decide, by decide⟩,
    ⟨(c10_main.2.2.1 updArgsAdaBogus "t1" storeC8 contactAda (by decide) (by decide)
        (by decide)).1,
     c10_main.2.2.2 editArgsBogus "t1" storeEF groupEveFrank (by decide) (by decide)
        (by decide)⟩⟩

end Crm
